import Mathlib

/-
Verification of the agent-orchestration core of the `see-tran` repository
(`app/agents/...`): a shallow embedding of its JSON-style dynamic values,
the structured-JSON extraction helper, confidence filtering, diff
computation, the tool registry, the image-fetch tool's heuristic fallback
chain, short-name derivation, and the agency agent's execution pipeline,
together with theorems settling the frozen claims about that code.

Modelling conventions:
- Python strings are `List Char`; Python dicts are association lists with
  first-match lookup (real dicts have unique keys, so this is faithful).
- External effects (LLM HTTP calls, the network, the filesystem, PIL) are
  supplied by explicit environment records; an operation the source code
  does not guard with `try`/`except` propagates its `Except` error exactly
  where the Python exception would propagate.
- `json.loads` (standard library) is an abstract parameter
  `jloads : LStr → Except LStr JValue`; the embedded functions are proved
  correct for every parser, and witnesses instantiate a concrete one.
-/

namespace SeeTran

/-- Python strings, modelled as lists of characters. -/
abbrev LStr := List Char

/-- The whitespace class stripped by Python `str.strip()` (ASCII range; the
source only manipulates ASCII whitespace here). -/
def isPySpace (c : Char) : Bool :=
  c.toNat = 32 || c.toNat = 9 || c.toNat = 10 || c.toNat = 13 || c.toNat = 11 || c.toNat = 12

/-- Drop the trailing run of characters satisfying `p` (recursive form of
reverse-dropWhile-reverse, kept structural for proofs). -/
def dropTrailIf (p : Char → Bool) : LStr → LStr
  | [] => []
  | c :: cs =>
    if dropTrailIf p cs = [] then (if p c then [] else [c])
    else c :: dropTrailIf p cs

/-- Python `s.strip()`: drop leading and trailing whitespace. -/
def pyStrip (s : LStr) : LStr := dropTrailIf isPySpace (s.dropWhile isPySpace)

/-- Python `str.lower` on the ASCII letters (the only case the source exercises). -/
def asciiLower (c : Char) : Char :=
  if 65 ≤ c.toNat ∧ c.toNat ≤ 90 then Char.ofNat (c.toNat + 32) else c

/-- Lower-case a whole string. -/
def lowerStr (s : LStr) : LStr := s.map asciiLower

/-- Python `needle in hay` on strings: substring test. -/
def containsSub (needle : LStr) : LStr → Bool
  | [] => needle.isEmpty
  | c :: rest => needle.isPrefixOf (c :: rest) || containsSub needle rest

/-- A JSON-parsed Python value (the output of `json.loads`): `null` is Python
`None`; JSON numbers are collapsed to rationals, so `1 == 1.0` holds as it
does in Python. -/
inductive JValue where
  | null
  | bool (b : Bool)
  | num (q : ℚ)
  | str (s : LStr)
  | arr (xs : List JValue)
  | obj (kvs : List (LStr × JValue))

/-- A Python dict of JSON values. -/
abbrev Dict := List (LStr × JValue)

/-- First-match association lookup, the model of Python dict indexing. -/
def lookupJ (kvs : Dict) (k : LStr) : Option JValue :=
  match kvs with
  | [] => none
  | (k', v) :: rest => if k' = k then some v else lookupJ rest k

/-- Python `d.get(k)` with its default of `None`. -/
def dGet (kvs : Dict) (k : LStr) : JValue := (lookupJ kvs k).getD .null

/-- The keys of a dict, in order. -/
def dictKeys (kvs : Dict) : List LStr := kvs.map Prod.fst

/-- Python `d[k] = v`: replace in place when the key exists, else append
(Python dicts keep the original insertion position on overwrite). -/
def dictSet (kvs : Dict) (k : LStr) (v : JValue) : Dict :=
  match kvs with
  | [] => [(k, v)]
  | (k', w) :: rest => if k' = k then (k', v) :: rest else (k', w) :: dictSet rest k v

mutual
/-- Python `==` on JSON-parsed values. Cross-type numeric equality is handled
by using `ℚ`, and Python treats `bool` as an integer (`True == 1`). Dicts
compare by key set and per-key value (insertion order is irrelevant, as in
Python). -/
def pyEq : JValue → JValue → Bool
  | .null, .null => true
  | .bool a, .bool b => a == b
  | .bool a, .num b => (if a then (1 : ℚ) else 0) == b
  | .num a, .bool b => a == (if b then (1 : ℚ) else 0)
  | .num a, .num b => a == b
  | .str a, .str b => a == b
  | .arr xs, .arr ys => pyEqList xs ys
  | .obj a, .obj b => a.length == b.length && pyEqObj a b
  | _, _ => false

/-- Elementwise Python `==` on lists. -/
def pyEqList : List JValue → List JValue → Bool
  | [], [] => true
  | x :: xs, y :: ys => pyEq x y && pyEqList xs ys
  | _, _ => false

/-- Every entry of the first dict matches the second dict under its key. -/
def pyEqObj : List (LStr × JValue) → List (LStr × JValue) → Bool
  | [], _ => true
  | (k, v) :: rest, b =>
      (match lookupJ b k with
       | some w => pyEq v w
       | none => false) && pyEqObj rest b
end

/-- Python truthiness of a JSON-parsed value. -/
def pyTruthy : JValue → Bool
  | .null => false
  | .bool b => b
  | .num q => !(q == 0)
  | .str s => !s.isEmpty
  | .arr xs => !xs.isEmpty
  | .obj kvs => !kvs.isEmpty

/-- The Python runtime type name of a JSON-parsed value, as it appears in
exception messages. -/
def pyTypeName : JValue → LStr
  | .null => (r"NoneType").data
  | .bool _ => (r"bool").data
  | .num q => if q.den = 1 then (r"int").data else (r"float").data
  | .str _ => (r"str").data
  | .arr _ => (r"list").data
  | .obj _ => (r"dict").data

/-- The `TypeError` message raised by `x in v` on a non-container. -/
def notIterableMsg (t : LStr) : LStr :=
  (r"argument of type '").data ++ t ++ (r"' is not iterable").data

/-- The `AttributeError` message raised by attribute access on the wrong type. -/
def noAttrMsg (t attr : LStr) : LStr :=
  (r"'").data ++ t ++ (r"' object has no attribute '").data ++ attr ++ (r"'").data

/-- Python `key in v`, as used on the extraction result in
`AgencyAgent.execute`: key lookup on dicts, element equality on lists,
substring test on strings, `TypeError` otherwise. -/
def pyContains (v : JValue) (key : LStr) : Except LStr Bool :=
  match v with
  | .obj kvs => .ok (kvs.any (fun kv => kv.1 == key))
  | .arr xs => .ok (xs.any (fun x => pyEq x (.str key)))
  | .str s => .ok (containsSub key s)
  | other => .error (notIterableMsg (pyTypeName other))

/-- Python `v.get(key)` with default `None`; `AttributeError` when `v` is not
a dict. -/
def pyGetAttr (v : JValue) (key : LStr) : Except LStr JValue :=
  match v with
  | .obj kvs => .ok (dGet kvs key)
  | other => .error (noAttrMsg (pyTypeName other) ((r"get").data))

/-- Python `v.get(key, dflt)`; `AttributeError` when `v` is not a dict. -/
def pyGetAttrD (v : JValue) (key : LStr) (dflt : JValue) : Except LStr JValue :=
  match v with
  | .obj kvs => .ok ((lookupJ kvs key).getD dflt)
  | other => .error (noAttrMsg (pyTypeName other) ((r"get").data))

/-- Decimal rendering of a signed integer. -/
def intRepr (n : ℤ) : LStr :=
  if n < 0 then [Char.ofNat 45] ++ Nat.toDigits 10 n.natAbs else Nat.toDigits 10 n.natAbs

/-- Rendering of a number for Python text output. Integers render exactly;
non-integers render as a fraction (an approximation of float repr — no
verified property depends on this text). -/
def numRepr (q : ℚ) : LStr :=
  if q.den = 1 then intRepr q.num
  else intRepr q.num ++ [Char.ofNat 47] ++ Nat.toDigits 10 q.den

mutual
/-- Python `repr` of a JSON-parsed value (single-quoted strings, bracketed
containers); feeds only log and error message text. -/
def pyRepr : JValue → LStr
  | .null => (r"None").data
  | .bool b => if b then (r"True").data else (r"False").data
  | .num q => numRepr q
  | .str s => (r"'").data ++ s ++ (r"'").data
  | .arr xs => [Char.ofNat 91] ++ pyReprList xs ++ [Char.ofNat 93]
  | .obj kvs => [Char.ofNat 123] ++ pyReprObj kvs ++ [Char.ofNat 125]

/-- Comma-separated reprs of list elements. -/
def pyReprList : List JValue → LStr
  | [] => []
  | [x] => pyRepr x
  | x :: y :: rest => pyRepr x ++ (r", ").data ++ pyReprList (y :: rest)

/-- Comma-separated reprs of dict entries. -/
def pyReprObj : List (LStr × JValue) → LStr
  | [] => []
  | [(k, v)] => (r"'").data ++ k ++ (r"': ").data ++ pyRepr v
  | (k, v) :: e :: rest =>
      (r"'").data ++ k ++ (r"': ").data ++ pyRepr v ++ (r", ").data ++ pyReprObj (e :: rest)
end

/-- Python `str()` of a JSON-parsed value: strings unquoted, the rest via repr. -/
def pyStrOf : JValue → LStr
  | .str s => s
  | v => pyRepr v

/-- Round `q * 100` to the nearest integer, ties to even (the rounding of
Python's `'%.2f'` format), computed in integer arithmetic on the reduced
numerator and denominator. -/
def roundCentsHalfEven (q : ℚ) : ℤ :=
  let a : ℤ := q.num * 100
  let b : ℤ := (q.den : ℤ)
  let f : ℤ := a.fdiv b
  let r : ℤ := a - f * b
  if 2 * r < b then f
  else if b < 2 * r then f + 1
  else if f % 2 = 0 then f else f + 1

/-- Python `f'{x:.2f}'` on an exact rational (the idealization of the float
formatting in the confidence-filter reason text). -/
def fmt2 (q : ℚ) : LStr :=
  let n := roundCentsHalfEven q
  let m := n.natAbs
  let ds := Nat.toDigits 10 (m % 100)
  let frac := if m % 100 < 10 then [Char.ofNat 48] ++ ds else ds
  (if n < 0 then [Char.ofNat 45] else []) ++ Nat.toDigits 10 (m / 100) ++ [Char.ofNat 46] ++ frac

/-! Structured-JSON extraction (`AgencyAgent._extract_json_from_response`). -/

/-- Does the string begin with three backticks? -/
def startsFence : LStr → Bool
  | c1 :: c2 :: c3 :: _ => c1.toNat = 96 && c2.toNat = 96 && c3.toNat = 96
  | _ => false

/-- The three-backtick fence marker (the `'` + `'` + `'`-like code fence). -/
def fence3 : LStr := [Char.ofNat 96, Char.ofNat 96, Char.ofNat 96]

/-- The text before the first closing fence, when one occurs (the lazy
`[\s\S]*?` up to the next fence). -/
def beforeClose : LStr → Option LStr
  | [] => none
  | c :: rest =>
    if startsFence (c :: rest) then some [] else (beforeClose rest).map (c :: ·)

/-- The leftmost match of the regex `(fence)(?:json)?\s*([\s\S]*?)(fence)`
used on fenced code blocks; returns capture group 1. -/
def fenceSearch : LStr → Option LStr
  | [] => none
  | c :: rest =>
    if startsFence (c :: rest) then
      let afterOpen := rest.drop 2
      let afterJson :=
        if ((r"json").data).isPrefixOf afterOpen then afterOpen.drop 4 else afterOpen
      match beforeClose (afterJson.dropWhile isPySpace) with
      | some inner => some inner
      | none => fenceSearch rest
    else fenceSearch rest

/-- Python `content.find(c)` (as an `Option` instead of `-1`). -/
def findIdxOf (c : Char) (s : LStr) : Option Nat := s.findIdx? (· = c)

/-- Python `content.rfind(c)` (as an `Option` instead of `-1`). -/
def rfindIdxOf (c : Char) (s : LStr) : Option Nat :=
  match s.reverse.findIdx? (· = c) with
  | some r => some (s.length - 1 - r)
  | none => none

/-- The opening curly brace. -/
def lbrace : Char := Char.ofNat 123

/-- The closing curly brace. -/
def rbrace : Char := Char.ofNat 125

/-- `content[start:end + 1]` for the first `{` and last `}`, when both exist
and the last `}` comes after the first `{`. -/
def braceSlice (content : LStr) : Option LStr :=
  match findIdxOf lbrace content, rfindIdxOf rbrace content with
  | some s, some e => if s < e then some ((content.drop s).take (e + 1 - s)) else none
  | _, _ => none

/-- The sentinel key `'_parse_error'`. -/
def parseErrorKey : LStr := (r"_parse_error").data

/-- The sentinel key `'_raw_content'`. -/
def rawContentKey : LStr := (r"_raw_content").data

/-- Message prefix of the brace-substring parse failure. -/
def foundButFailedMsg : LStr := (r"Found JSON-like content but failed to parse: ").data

/-- Message used when no JSON-like content was found at all. -/
def noJsonMsg : LStr := (r"Could not find valid JSON in response").data

/-- Step 2 of `_extract_json_from_response`: the fenced-block attempt
(`if` the fence marker occurs, search the block and parse its inner
content; `None` when absent or failing). -/
def fenceAttempt (jloads : LStr → Except LStr JValue) (content : LStr) : Option JValue :=
  if containsSub fence3 content then
    match fenceSearch content with
    | some inner =>
      match jloads (pyStrip inner) with
      | .ok v => some v
      | .error _ => none
    | none => none
  else none

/-- `AgencyAgent._extract_json_from_response`: extract JSON from an LLM
response, trying (1) the trimmed text verbatim, (2) the inner content of a
fenced code block, (3) the substring between the first and the last curly
brace; on total failure return the parse-error sentinel. `jloads` is the
abstract `json.loads`; its error value is the exception message. -/
def extractJsonFromResponse (jloads : LStr → Except LStr JValue) (raw : LStr) : JValue :=
  let content := pyStrip raw
  match jloads content with
  | .ok v => v
  | .error _ =>
    match fenceAttempt jloads content with
    | some v => v
    | none =>
      match braceSlice content with
      | some cand =>
        match jloads cand with
        | .ok v => v
        | .error e =>
            .obj [(parseErrorKey, .str (foundButFailedMsg ++ e)),
                  (rawContentKey, .str (cand.take 500))]
      | none =>
          .obj [(parseErrorKey, .str noJsonMsg),
                (rawContentKey, .str (content.take 500))]

/-! Short-name derivation (`ImageFetchTool._generate_short_name`). -/

/-- The generic organizational suffixes of the regex alternation
`transit|authority|agency|district|metro`. -/
def ORG_SUFFIXES : List LStr :=
  [(r"transit").data, (r"authority").data, (r"agency").data,
   (r"district").data, (r"metro").data]

/-- One attempt of `\s+(word)$` on the reversed name: when the reversed
string starts with the reversed suffix word (case-insensitively) followed by
at least one whitespace character, drop the word and the whole whitespace
run (greedy `\s+`; `re.sub` matches from the start of that run). -/
def stripSuffixRev (w : LStr) (rs : LStr) : Option LStr :=
  if (rs.take w.reverse.length).map asciiLower = w.reverse then
    match rs.drop w.reverse.length with
    | c :: rest' =>
        if isPySpace c then some ((c :: rest').dropWhile isPySpace) else none
    | [] => none
  else none

/-- First suffix alternative that matches (regex alternation order). -/
def trySuffixes (rs : LStr) : List LStr → Option LStr
  | [] => none
  | w :: ws =>
    match stripSuffixRev w rs with
    | some r => some r
    | none => trySuffixes rs ws

/-- `re.sub(r'\s+(transit|authority|agency|district|metro)$', '', name,
flags=re.I)`. -/
def stripOrgSuffix (name : LStr) : LStr :=
  match trySuffixes name.reverse ORG_SUFFIXES with
  | some r => r.reverse
  | none => name

/-- Is the character in `[a-z0-9]` (the class kept by the collapse regex)? -/
def isLowerAlnum (c : Char) : Bool :=
  (97 ≤ c.toNat && c.toNat ≤ 122) || (48 ≤ c.toNat && c.toNat ≤ 57)

/-- The underscore separator. -/
def usc : Char := Char.ofNat 95

/-- `re.sub(r'[^a-z0-9]+', '_', s)`: replace every maximal run of characters
outside `[a-z0-9]` with a single underscore (a run contributes one `_`,
merged with an adjacent separator already emitted for the rest). -/
def collapseNonAlnum : LStr → LStr
  | [] => []
  | c :: cs =>
    if isLowerAlnum c then c :: collapseNonAlnum cs
    else if (collapseNonAlnum cs).head? = some usc then collapseNonAlnum cs
    else usc :: collapseNonAlnum cs

/-- Python `s.strip('_')`. -/
def stripUsc (s : LStr) : LStr := dropTrailIf (· = usc) (s.dropWhile (· = usc))

/-- The placeholder returned for an empty derived name. -/
def unknownToken : LStr := (r"unknown").data

/-- `ImageFetchTool._generate_short_name`, line for line from the source:
strip a trailing organizational suffix (case-insensitive regex), lower-case
and strip whitespace, collapse runs outside `[a-z0-9]` to `_`, strip outer
underscores; an empty result becomes `'unknown'`. -/
def generateShortName (name : LStr) : LStr :=
  let n1 := stripOrgSuffix name
  let n2 := pyStrip (lowerStr n1)
  let n3 := stripUsc (collapseNonAlnum n2)
  if n3.isEmpty then unknownToken else n3

/-- Short-name derivation as the spec words it (claim C9): lower-case the
entity name, strip a trailing generic organizational suffix, collapse
non-alphanumeric runs to a single separator, trim leading and trailing
separators, map an empty result to the placeholder token. Written from the
spec sentence, to be compared against `generateShortName`. -/
def shortNameSpec (name : LStr) : LStr :=
  let n1 := stripOrgSuffix (lowerStr name)
  let n2 := stripUsc (collapseNonAlnum n1)
  if n2.isEmpty then unknownToken else n2

/-! Diff computation and confidence filtering (`BaseAgent`). -/

/-- Is the value Python `None`? (the `is not None` test). -/
def isNull : JValue → Bool
  | .null => true
  | _ => false

/-- Key set `set(existing) | set(proposed)`, first occurrences kept (a Python
set's iteration order is unspecified; every verified property is
order-independent membership). -/
def dedupKeys : List LStr → List LStr
  | [] => []
  | k :: rest => k :: (dedupKeys rest).filter (· ≠ k)

/-- `BaseAgent._compute_diff`: a field enters the diff exactly when the
proposed value differs from the existing value and is not `None`. -/
def computeDiff (existing proposed : Dict) : Dict :=
  (dedupKeys (dictKeys existing ++ dictKeys proposed)).filterMap (fun k =>
    let oldV := dGet existing k
    let newV := dGet proposed k
    if !pyEq oldV newV && !isNull newV then
      some (k, .obj [((r"old").data, oldV), ((r"new").data, newV)])
    else none)

/-- Confidence mapping `field -> float`; `confGet` is
`confidences.get(key, 1.0)`. -/
abbrev ConfMap := List (LStr × ℚ)

/-- `confidences.get(key, 1.0)`. -/
def confGet (confs : ConfMap) (k : LStr) : ℚ :=
  match confs with
  | [] => 1
  | (k', c) :: rest => if k' = k then c else confGet rest k

/-- The skip reason `f'Below threshold ({conf:.2f} < {threshold:.2f})'`. -/
def belowThresholdReason (conf threshold : ℚ) : LStr :=
  (r"Below threshold (").data ++ fmt2 conf ++ (r" < ").data
    ++ fmt2 threshold ++ (r")").data

/-- The skipped-fields entry `{'value': v, 'confidence': c, 'reason': ...}`. -/
def skippedEntry (v : JValue) (conf threshold : ℚ) : JValue :=
  .obj [((r"value").data, v), ((r"confidence").data, .num conf),
        ((r"reason").data, .str (belowThresholdReason conf threshold))]

/-- `BaseAgent._filter_by_confidence` (its decision log entry is not
modelled; no claim mentions it): split `data` into `(kept, skipped)` by the
threshold, defaulting a missing confidence to `1.0`. -/
def filterByConfidence (threshold : ℚ) (data : Dict) (confs : ConfMap) : Dict × Dict :=
  match data with
  | [] => ([], [])
  | (k, v) :: rest =>
    let p := filterByConfidence threshold rest confs
    if threshold ≤ confGet confs k then ((k, v) :: p.1, p.2)
    else (p.1, (k, skippedEntry v (confGet confs k) threshold) :: p.2)

/-- Plain lookup in a confidence map (to state "has no confidence entry"). -/
def lookupConf (confs : ConfMap) (k : LStr) : Option ℚ :=
  match confs with
  | [] => none
  | (k', c) :: rest => if k' = k then some c else lookupConf rest k

/-! The tool registry (`app/agents/tools/__init__.py`). -/

/-- `ToolResult` from `app/agents/tools/__init__.py`. -/
structure ToolResult where
  success : Bool
  data : Dict := []
  confidence : ℚ := 0
  logs : List LStr := []
  error : Option LStr := none

/-- `ToolContext` from `app/agents/tools/__init__.py`. -/
structure ToolContext where
  params : Dict
  provider_name : LStr := (r"anthropic").data
  model : Option LStr := none

/-- A registered tool: its name and its `execute` behaviour. A tool body may
raise (the registry does not guard the dispatch), hence `Except`. -/
structure Tool where
  name : LStr
  run : ToolContext → Except LStr ToolResult

/-- The registry's name-to-tool dict. -/
abbrev ToolTable := List (LStr × Tool)

/-- Python dict insert, for an arbitrary value type. -/
def dictSetT {α : Type} (kvs : List (LStr × α)) (k : LStr) (v : α) : List (LStr × α) :=
  match kvs with
  | [] => [(k, v)]
  | (k', w) :: rest => if k' = k then (k', v) :: rest else (k', w) :: dictSetT rest k v

/-- `ToolRegistry.get`. -/
def registryGet (tools : ToolTable) (name : LStr) : Option Tool :=
  match tools with
  | [] => none
  | (n, t) :: rest => if n = name then some t else registryGet rest name

/-- `ToolRegistry.register`: `self._tools[tool.name] = tool`. -/
def registryRegister (tools : ToolTable) (t : Tool) : ToolTable :=
  dictSetT tools t.name t

/-- The unknown-tool error text. -/
def toolNotFoundError (name : LStr) : LStr := (r"Tool not found: ").data ++ name

/-- `ToolRegistry.execute`: an unknown name yields a failed `ToolResult`
rather than raising; a known name dispatches to the tool's `execute`. -/
def registryExecute (tools : ToolTable) (name : LStr) (ctx : ToolContext) :
    Except LStr ToolResult :=
  match registryGet tools name with
  | none => .ok { success := false, error := some (toolNotFoundError name) }
  | some t => t.run ctx

/-! The image-fetch tool (`app/agents/tools/image_fetch.py`). -/

/-- Raw downloaded bytes (byte values as naturals). -/
abbrev Bytes := List Nat

/-- An HTTP response, as consumed by `_download_image`. -/
structure DResp where
  status : Nat
  contentType : LStr
  body : Bytes

/-- An `<img>` element's attributes as read by the scraper (`src`/`alt`
default to `''` and `class` to `[]`, as `img.get` supplies). -/
structure PageImg where
  src : LStr := []
  alt : LStr := []
  classes : List LStr := []
  parentClasses : List LStr := []

/-- The parsed homepage, at the granularity the scraper queries it: the
`og:image` meta content (when such a tag exists, with `some []` a present
tag whose content is empty), every `<img>`, and the `href` of every `<link>`
whose `rel` contains `icon`. -/
structure Soup where
  ogImage : Option LStr := none
  imgs : List PageImg := []
  iconHrefs : List (Option LStr) := []

/-- The network environment of one tool invocation: the homepage fetch
outcome, the download outcome per URL, and the URL helpers of `urllib`
(abstracted: `baseUrl` is `scheme://netloc` of the page URL). An
`Except.error` is a raised network exception. -/
structure FetchEnv where
  pageUrl : LStr
  baseUrl : LStr
  homepage : Except LStr (Nat × Soup)
  download : LStr → Except LStr DResp
  joinUrl : LStr → LStr → LStr

/-- The image extensions accepted by `_download_image`'s URL fallback. -/
def IMAGE_EXTS : List LStr :=
  [(r".png").data, (r".jpg").data, (r".jpeg").data, (r".ico").data,
   (r".svg").data, (r".gif").data]

/-- Python `url.endswith(('.png', '.jpg', ...))`. -/
def endsWithImageExt (url : LStr) : Bool := IMAGE_EXTS.any (fun e => e.isSuffixOf url)

/-- `ImageFetchTool._download_image`: the bytes of a 200 response that looks
like an image; every network error is caught and becomes `None`. -/
def downloadImage (env : FetchEnv) (url : LStr) : Option Bytes :=
  match env.download url with
  | .error _ => none
  | .ok res =>
    if res.status = 200 &&
        (containsSub ((r"image").data) res.contentType || endsWithImageExt url) then
      some res.body
    else none

/-- Python `' '.join(xs)`. -/
def joinSpace : List LStr → LStr
  | [] => []
  | [x] => x
  | x :: y :: rest => x ++ [Char.ofNat 32] ++ joinSpace (y :: rest)

/-- The logo keyword. -/
def logoWord : LStr := (r"logo").data

/-- Does an `<img>` match the logo heuristic: `'logo'` occurs in the lowered
`src`, `alt` or space-joined `class`? -/
def isLogoImg (im : PageImg) : Bool :=
  containsSub logoWord (lowerStr im.src) || containsSub logoWord (lowerStr im.alt)
    || containsSub logoWord (lowerStr (joinSpace im.classes))

/-- Source identifier of the meta-tag heuristic. -/
def srcOgImage : LStr := (r"og:image").data

/-- Source identifier of the inline-image heuristic. -/
def srcHtmlImg : LStr := (r"html_img").data

/-- Source identifier of the favicon-link heuristic. -/
def srcFaviconLink : LStr := (r"favicon_link").data

/-- The `og:image` meta-tag attempt (logo mode; joined against the site
base URL). -/
def tryOgImage (env : FetchEnv) (soup : Soup) : Option (Bytes × LStr) :=
  match soup.ogImage with
  | some content =>
    if !content.isEmpty then
      match downloadImage env (env.joinUrl env.baseUrl content) with
      | some b => some (b, srcOgImage)
      | none => none
    else none
  | none => none

/-- The inline `<img>` scan: first matching element whose download succeeds
wins; a failed download moves on to the next element. -/
def tryLogoImgs (env : FetchEnv) : List PageImg → Option (Bytes × LStr)
  | [] => none
  | im :: rest =>
    if isLogoImg im then
      match downloadImage env (env.joinUrl env.baseUrl im.src) with
      | some b => some (b, srcHtmlImg)
      | none => tryLogoImgs env rest
    else tryLogoImgs env rest

/-- The favicon `<link>` scan; a result of at most 1000 bytes is discarded
as a throwaway favicon and the scan continues. -/
def tryIconLinks (env : FetchEnv) : List (Option LStr) → Option (Bytes × LStr)
  | [] => none
  | href? :: rest =>
    match href? with
    | some href =>
      if !href.isEmpty then
        match downloadImage env (env.joinUrl env.baseUrl href) with
        | some b =>
          if b.length > 1000 then some (b, srcFaviconLink) else tryIconLinks env rest
        | none => tryIconLinks env rest
      else tryIconLinks env rest
    | none => tryIconLinks env rest

/-- The conventional logo paths probed as a last resort. -/
def LOGO_PATHS : List LStr :=
  [(r"/favicon.ico").data, (r"/favicon.png").data, (r"/logo.png").data,
   (r"/logo.svg").data, (r"/images/logo.png").data, (r"/assets/logo.png").data,
   (r"/img/logo.png").data]

/-- Source identifier marker of the common-path heuristic. -/
def commonPathTag : LStr := (r"common_path:").data

/-- Probe the conventional paths in order. -/
def tryCommonPaths (env : FetchEnv) : List LStr → Option (Bytes × LStr)
  | [] => none
  | p :: rest =>
    match downloadImage env (env.joinUrl env.baseUrl p) with
    | some b => some (b, commonPathTag ++ p)
    | none => tryCommonPaths env rest

/-- `ImageFetchTool._fetch_logo_from_website`: the ordered fallback chain,
first success wins; the outer `try` turns a raised error (the homepage
fetch) into a failed attempt, after which the common paths are not reached
(the raise leaves the `with` block). Log-string accumulation is not
modelled (no claim mentions the tool's log text). -/
def fetchLogoFromWebsite (env : FetchEnv) : Option (Bytes × LStr) :=
  match env.homepage with
  | .error _ => none
  | .ok (status, soup) =>
    let fromPage :=
      if status = 200 then
        match tryOgImage env soup with
        | some res => some res
        | none =>
          match tryLogoImgs env soup.imgs with
          | some res => some res
          | none => tryIconLinks env soup.iconHrefs
      else none
    match fromPage with
    | some res => some res
    | none => tryCommonPaths env LOGO_PATHS

/-- The header keywords. -/
def headerKeywords : List LStr := [(r"header").data, (r"banner").data, (r"hero").data]

/-- Header match: a keyword occurs in the concatenation of lowered `src`,
class and parent class (concatenated exactly as the source does). -/
def isHeaderImg (im : PageImg) : Bool :=
  headerKeywords.any (fun kw =>
    containsSub kw (lowerStr im.src ++ lowerStr (joinSpace im.classes)
      ++ lowerStr (joinSpace im.parentClasses)))

/-- Source identifier of the header-image heuristic. -/
def srcHeaderImg : LStr := (r"header_img").data

/-- The header `<img>` scan (joins relative to the page URL). -/
def tryHeaderImgs (env : FetchEnv) : List PageImg → Option (Bytes × LStr)
  | [] => none
  | im :: rest =>
    if isHeaderImg im then
      match downloadImage env (env.joinUrl env.pageUrl im.src) with
      | some b => some (b, srcHeaderImg)
      | none => tryHeaderImgs env rest
    else tryHeaderImgs env rest

/-- `ImageFetchTool._fetch_header_from_website`: `og:image` first (joined
against the page URL), then the header/banner/hero scan; no common-path
fallback. -/
def fetchHeaderFromWebsite (env : FetchEnv) : Option (Bytes × LStr) :=
  match env.homepage with
  | .error _ => none
  | .ok (status, soup) =>
    if status = 200 then
      match (match soup.ogImage with
             | some content =>
               if !content.isEmpty then
                 match downloadImage env (env.joinUrl env.pageUrl content) with
                 | some b => some (b, srcOgImage)
                 | none => none
               else none
             | none => none) with
      | some res => some res
      | none => tryHeaderImgs env soup.imgs
    else none

/-- The image-processing and filesystem environment (PIL and `os`),
abstracted: `makedirs` precedes the guarded block and may raise; decoding
bytes yields the decoded image's dimensions or raises; `thumbDims` is the
bounding-box resize of `Image.thumbnail((256, 256))`; saving may raise. -/
structure PILEnv where
  makedirs : Except LStr Unit
  openImage : Bytes → Except LStr (Nat × Nat)
  thumbDims : Nat × Nat → Nat × Nat
  save : LStr → Except LStr Unit

/-- The tool parameters after the `params.get` defaults at the top of
`ImageFetchTool.execute` (`entity_type` defaults to `'agency'`, the string
fields to `''`, `website_url` to `None`, `image_type` to `'logo'`). -/
structure ImgParams where
  entityType : LStr := (r"agency").data
  entityName : LStr := []
  shortName : LStr := []
  websiteUrl : Option LStr := none
  imageType : LStr := (r"logo").data

/-- The target directory chosen by entity type and image class. -/
def targetDir (entityType imageType : LStr) : LStr :=
  if entityType = (r"agency").data then
    if imageType = (r"logo").data then (r"app/static/images/transit_logos").data
    else (r"app/static/images/transit_headers").data
  else
    if imageType = (r"logo").data then (r"app/static/images/vendor_logos").data
    else (r"app/static/images/vendor_headers").data

/-- The `f"{w}x{h}"` dimension string. -/
def dimStr (w h : Nat) : LStr :=
  Nat.toDigits 10 w ++ [Char.ofNat 120] ++ Nat.toDigits 10 h

/-- `ImageFetchTool.execute`. Log-string accumulation is not modelled. Only
`os.makedirs` can surface as `Except.error` (it precedes the guarded block);
the image-processing block is guarded by `try`/`except` in the source and
always yields a `ToolResult`. -/
def imageFetchExecute (env : FetchEnv) (pil : PILEnv) (p : ImgParams) :
    Except LStr ToolResult :=
  let shortName := if p.shortName.isEmpty then generateShortName p.entityName else p.shortName
  let dir := targetDir p.entityType p.imageType
  match pil.makedirs with
  | .error e => .error e
  | .ok _ =>
    let fetched : Option (Bytes × LStr) :=
      match p.websiteUrl with
      | some u =>
        if !u.isEmpty then
          (if p.imageType = (r"logo").data then fetchLogoFromWebsite env
           else fetchHeaderFromWebsite env)
        else none
      | none => none
    match fetched with
    | none =>
      .ok { success := false,
            data := [((r"reason").data, .str ((r"Image not found").data))],
            confidence := 0 }
    | some (bytes, source) =>
      let confidence : ℚ := 85/100
      let filename := shortName ++ [usc] ++ p.imageType ++ (r".png").data
      let filepath := dir ++ [Char.ofNat 47] ++ filename
      match pil.openImage bytes with
      | .error e =>
        .ok { success := false, data := [((r"error").data, .str e)],
              confidence := 0, error := some e }
      | .ok (w0, h0) =>
        let dims :=
          if p.imageType = (r"logo").data then pil.thumbDims (w0, h0) else (w0, h0)
        let conf2 :=
          if p.imageType = (r"logo").data then confidence
          else if w0 < 400 then confidence * (7/10) else confidence
        match pil.save filepath with
        | .error e =>
          .ok { success := false, data := [((r"error").data, .str e)],
                confidence := 0, error := some e }
        | .ok _ =>
          .ok { success := true,
                data := [((r"filepath").data, .str filepath),
                         ((r"filename").data, .str filename),
                         ((r"source").data, .str source),
                         ((r"dimensions").data, .str (dimStr dims.1 dims.2))],
                confidence := conf2 }

/-! The agent execution pipeline (`app/agents/base.py` and
`app/agents/agency_agent.py`). -/

/-- One `LogEntry`; the wall-clock `timestamp` and `duration_ms` fields are
not modelled. -/
structure LogEntry where
  event_type : LStr
  details : Dict

/-- `AgentResult` from `app/agents/base.py`. -/
structure AgentResult where
  success : Bool
  draft : Dict := []
  skipped_fields : Dict := []
  diff : Option Dict := none
  logs : List LogEntry := []
  provider_used : LStr := []
  model_used : LStr := []
  is_update : Bool := false
  error : Option LStr := none

/-- `LLMResponse` (the raw backend payload is opaque and not modelled). -/
structure LLMResponse where
  content : LStr
  model : LStr := []
  input_tokens : Nat := 0
  output_tokens : Nat := 0

/-- An `Agency` model instance at the granularity `_record_to_dict` reads
it: attribute values as JSON-style scalars, database nulls as `.null`. -/
structure AgencyRecord where
  name : JValue := .null
  short_name : JValue := .null
  location : JValue := .null
  description : JValue := .null
  website : JValue := .null
  ceo : JValue := .null
  address_hq : JValue := .null
  phone_number : JValue := .null
  contact_email : JValue := .null
  transit_map_link : JValue := .null
  email_domain : JValue := .null

/-- `AgencyAgent._record_to_dict`. -/
def recordToDict (a : AgencyRecord) : Dict :=
  [((r"name").data, a.name), ((r"short_name").data, a.short_name),
   ((r"location").data, a.location), ((r"description").data, a.description),
   ((r"website").data, a.website), ((r"ceo").data, a.ceo),
   ((r"address_hq").data, a.address_hq), ((r"phone_number").data, a.phone_number),
   ((r"contact_email").data, a.contact_email),
   ((r"transit_map_link").data, a.transit_map_link),
   ((r"email_domain").data, a.email_domain)]

/-- The external world of one `AgencyAgent.execute` run: the configured
provider and model, the outcome of the (at most one) search-augmented
research call and of the (at most one) plain extraction call, `json.loads`,
the two image-fetch tool invocations, and the audit-log append
(`_save_audit_log`: directory creation, session read and file write,
collapsed into one outcome). Every `Except.error` is a raised exception,
carrying its message. -/
structure AgencyEnv where
  providerName : LStr := (r"anthropic").data
  modelName : LStr := []
  research : Except LStr LLMResponse
  extraction : Except LStr LLMResponse
  jloads : LStr → Except LStr JValue
  logoTool : Except LStr ToolResult := .ok { success := false }
  headerTool : Except LStr ToolResult := .ok { success := false }
  auditWrite : Except LStr Unit := .ok ()

/-- `BaseAgent._create_result`. -/
def createResult (env : AgencyEnv) (success : Bool) (draft skipped : Dict)
    (diff : Option Dict) (is_update : Bool) (error : Option LStr)
    (logs : List LogEntry) : AgentResult :=
  { success, draft, skipped_fields := skipped, diff, logs,
    provider_used := env.providerName, model_used := env.modelName,
    is_update, error }

/-- The `'decision'` event type. -/
def eventDecision : LStr := (r"decision").data

/-- The `'error'` event type. -/
def eventError : LStr := (r"error").data

/-- The `'llm_call'` event type. -/
def eventLLMCall : LStr := (r"llm_call").data

/-- The `'tool_call'` event type. -/
def eventToolCall : LStr := (r"tool_call").data

/-- A `decision` log entry. -/
def decisionLog (details : Dict) : LogEntry := ⟨eventDecision, details⟩

/-- An `error` log entry `{'stage': ..., 'error': ...}`. -/
def errorLog (stage msg : LStr) : LogEntry :=
  ⟨eventError, [((r"stage").data, .str stage), ((r"error").data, .str msg)]⟩

/-- The double-quote character. -/
def dquote : Char := Char.ofNat 34

/-- The user message `_research_agency` builds. -/
def researchPrompt (name : LStr) : LStr :=
  (r"Research the public transit agency ").data ++ [dquote] ++ name ++ [dquote]
    ++ (r". Find their official name, current leadership, headquarters address, website, and contact information.").data

/-- The user message `_extract_structured_data` builds. -/
def extractionPrompt (findings : LStr) : LStr :=
  (r"Extract structured agency data from these research findings:").data
    ++ [Char.ofNat 10, Char.ofNat 10] ++ findings

/-- `BaseAgent._call_llm`: on success append one `llm_call` log entry; on a
raised provider error append one `error` entry and re-raise. -/
def callLLM (env : AgencyEnv) (outcome : Except LStr LLMResponse)
    (useSearch : Bool) (promptPreview : LStr) (logs : List LogEntry) :
    List LogEntry × Except LStr LLMResponse :=
  match outcome with
  | .ok resp =>
    (logs ++ [⟨eventLLMCall,
       [((r"provider").data, .str env.providerName),
        ((r"model").data, .str resp.model),
        ((r"use_search").data, .bool useSearch),
        ((r"input_tokens").data, .num (resp.input_tokens : ℚ)),
        ((r"output_tokens").data, .num (resp.output_tokens : ℚ)),
        ((r"prompt_preview").data, .str (promptPreview.take 200))]⟩], .ok resp)
  | .error e => (logs ++ [errorLog ((r"llm_call").data) e], .error e)

/-- `BaseAgent._call_tool`: dispatch and append one `tool_call` log entry
(named parameters minus `api_key`); a raised tool error propagates before
the log line is reached. -/
def callTool (outcome : Except LStr ToolResult) (toolName : LStr)
    (params : Dict) (logs : List LogEntry) :
    List LogEntry × Except LStr ToolResult :=
  match outcome with
  | .ok res =>
    (logs ++ [⟨eventToolCall,
       [((r"tool").data, .str toolName),
        ((r"params").data, .obj (params.filter (fun kv => kv.1 != (r"api_key").data))),
        ((r"success").data, .bool res.success),
        ((r"confidence").data, .num res.confidence),
        ((r"error").data, match res.error with | some e => .str e | none => .null)]⟩],
     .ok res)
  | .error e => (logs, .error e)

/-- The `except Exception` handler of `AgencyAgent.execute`: log an `error`
event for stage `execution`, return a failed result with an empty draft and
no diff. -/
def exceptResult (env : AgencyEnv) (logs : List LogEntry) (e : LStr) : AgentResult :=
  createResult env false [] [] none false (some e)
    (logs ++ [errorLog ((r"execution").data) e])

/-- The tool parameter dict built by `_fetch_agency_images`. -/
def imageToolParams (draft : Dict) (shortName website : JValue) (imgType : LStr) : Dict :=
  [((r"entity_type").data, JValue.str ((r"agency").data)),
   ((r"entity_name").data, (lookupJ draft ((r"name").data)).getD (.str [])),
   ((r"short_name").data, shortName),
   ((r"website_url").data, website),
   ((r"image_type").data, .str imgType)]

/-- `AgencyAgent._fetch_agency_images`: invoke the image tool for the logo
and the header; on tool success annotate the draft with the reserved marker
fields. The draft is known to be a dict here (a `.get` on it succeeded). -/
def fetchAgencyImages (env : AgencyEnv) (draft0 : Dict) (logs : List LogEntry) :
    List LogEntry × Except LStr Dict :=
  let website := dGet draft0 ((r"website").data)
  let snRaw := dGet draft0 ((r"short_name").data)
  let shortName :=
    if pyTruthy snRaw then snRaw
    else (lookupJ draft0 ((r"name").data)).getD (.str ((r"agency").data))
  match callTool env.logoTool ((r"image_fetch").data)
      (imageToolParams draft0 shortName website ((r"logo").data)) logs with
  | (logs1, .error e) => (logs1, .error e)
  | (logs1, .ok logoRes) =>
    let draft1 :=
      if logoRes.success then
        dictSet (dictSet draft0 ((r"_logo_fetched").data) (.bool true))
          ((r"_logo_path").data) (dGet logoRes.data ((r"filepath").data))
      else draft0
    match callTool env.headerTool ((r"image_fetch").data)
        (imageToolParams draft1 shortName website ((r"header").data)) logs1 with
    | (logs2, .error e) => (logs2, .error e)
    | (logs2, .ok headerRes) =>
      let draft2 :=
        if headerRes.success then
          dictSet (dictSet draft1 ((r"_header_fetched").data) (.bool true))
            ((r"_header_path").data) (dGet headerRes.data ((r"filepath").data))
        else draft1
      (logs2, .ok draft2)

/-- The fixed validation failure message. -/
def nameRequiredMsg : LStr := (r"Agency name is required").data

/-- The labelled parse-failure message marker. -/
def failedParseMsg : LStr := (r"Failed to parse response: ").data

/-- The message of the empty-research failure. -/
def noFindingsMsg : LStr := (r"Research step returned no findings").data

/-- Finish a successful run: build the success result, then write the audit
log; a raised audit error falls into the generic `except` handler (the
built result is discarded and the run fails). -/
def finishWithAudit (env : AgencyEnv) (draft : Dict) (diff : Option Dict)
    (isUpd : Bool) (logs : List LogEntry) : AgentResult :=
  let res := createResult env true draft [] diff isUpd none logs
  match env.auditWrite with
  | .ok _ => res
  | .error e => exceptResult env logs e

/-- The `try:` body of `AgencyAgent.execute` together with its
`except Exception` handler; always yields an `AgentResult`. -/
def agencyExecuteBody (env : AgencyEnv) (inputName : LStr)
    (existing : Option AgencyRecord) (logs0 : List LogEntry) : AgentResult :=
  let logsA := logs0 ++ [decisionLog
    [((r"action").data, .str ((r"research_start").data)),
     ((r"agency_name").data, .str inputName)]]
  match callLLM env env.research true (researchPrompt inputName) logsA with
  | (logsB, .error e) => exceptResult env logsB e
  | (logsB, .ok resp) =>
    let logsC := logsB ++ [decisionLog
      [((r"action").data, .str ((r"research_complete").data)),
       ((r"response_length").data, .num (resp.content.length : ℚ))]]
    let findings := resp.content
    if findings.isEmpty then
      createResult env false [] [] none false (some noFindingsMsg) logsC
    else
      let logsD := logsC ++ [decisionLog
        [((r"action").data, .str ((r"extraction_start").data))]]
      match callLLM env env.extraction false (extractionPrompt findings) logsD with
      | (logsE, .error e) => exceptResult env logsE e
      | (logsE, .ok resp2) =>
        let draft0 := extractJsonFromResponse env.jloads resp2.content
        match pyContains draft0 parseErrorKey with
        | .error e => exceptResult env logsE e
        | .ok true =>
          match pyGetAttr draft0 parseErrorKey with
          | .error e => exceptResult env logsE e
          | .ok pe =>
            let logsF := logsE ++ [⟨eventError,
              [((r"stage").data, .str ((r"extraction").data)),
               ((r"error").data, pe)]⟩]
            createResult env false [] [] none false
              (some (failedParseMsg ++ pyStrOf pe)) logsF
        | .ok false =>
          match draft0 with
          | .obj draftKvs =>
            let websiteV := dGet draftKvs ((r"website").data)
            match (if pyTruthy websiteV then fetchAgencyImages env draftKvs logsE
                   else (logsE, .ok draftKvs)) with
            | (logsG, .error e) => exceptResult env logsG e
            | (logsG, .ok draft1) =>
              match existing with
              | some rec =>
                let diffD := computeDiff (recordToDict rec) draft1
                let logsH := logsG ++ [decisionLog
                  [((r"action").data, .str ((r"computed_diff").data)),
                   ((r"changed_fields").data, .arr ((dictKeys diffD).map .str))]]
                finishWithAudit env draft1 (some diffD) true logsH
              | none => finishWithAudit env draft1 none false logsG
          | other =>
            exceptResult env logsE (noAttrMsg (pyTypeName other) ((r"get").data))

/-- `AgencyAgent.execute`. The validation happens before the `try` block;
`input_data.get('name', '')` defaults to `''`, and `.strip()` on a
non-string value raises out of `execute` (hence the `Except`). Every other
path returns an `AgentResult`. -/
def agencyExecute (env : AgencyEnv) (input : Dict) (existing : Option AgencyRecord) :
    Except LStr AgentResult :=
  match (lookupJ input ((r"name").data)).getD (.str []) with
  | .str rawName =>
    if (pyStrip rawName).isEmpty then
      .ok (createResult env false [] [] none false (some nameRequiredMsg) [])
    else
      .ok (agencyExecuteBody env (pyStrip rawName) existing
            [decisionLog [((r"action").data, .str ((r"start").data)),
                          ((r"agency_name").data, .str (pyStrip rawName))]])
  | other => .error (noAttrMsg (pyTypeName other) ((r"strip").data))

/-! Concrete fixtures used by witnesses: a small `json.loads` oracle, demo
environments and records. -/

/-- A concrete parser oracle recognising the two witness fixtures (a
one-field object and a bare number); everything else is a parse error with
a CPython-style message. -/
def jloadsDemo (s : LStr) : Except LStr JValue :=
  if s = ("\x7b\"name\":\"X\"\x7d").data then
    .ok (.obj [((r"name").data, .str ((r"X").data))])
  else if s = (r"3").data then .ok (.num 3)
  else .error ((r"Expecting value: line 1 column 1 (char 0)").data)

/-- Witness input `{'name': 'TriMet'}`. -/
def inputDemo : Dict := [((r"name").data, .str ((r"TriMet").data))]

/-- A witness existing record. -/
def recDemo : AgencyRecord :=
  { name := .str ((r"Old Name").data), website := .str ((r"https://old").data) }

/-- A happy-path environment: research text, extraction text parsing to a
draft without a website, audit append succeeds. -/
def envHappy : AgencyEnv :=
  { research := .ok { content := (r"research findings").data },
    extraction := .ok { content := ("\x7b\"name\":\"X\"\x7d").data },
    jloads := jloadsDemo }

/-- The same run with a raising audit append. -/
def envAudit : AgencyEnv := { envHappy with auditWrite := .error ((r"disk full").data) }

/-- The same run with an extraction response of `'3'`. -/
def envNum : AgencyEnv := { envHappy with extraction := .ok { content := (r"3").data } }

/-- The result of the happy-path update run (witness helper). -/
def runUpdate : AgentResult :=
  (agencyExecute envHappy inputDemo (some recDemo)).toOption.getD { success := false }

/-- A fixture page with an `og:image` meta tag, a logo-classed image and a
favicon link. -/
def soupFull : Soup :=
  { ogImage := some ((r"/og.png").data),
    imgs := [{ src := (r"/logo.png").data, classes := [(r"logo").data] }],
    iconHrefs := [some ((r"/favicon.ico").data)] }

/-- Large enough download bytes. -/
def bytesBig : Bytes := List.replicate 2000 7

/-- Fetch environment where the homepage is `soupFull` and every download
returns image bytes. -/
def envFetchOg : FetchEnv :=
  { pageUrl := (r"https://x.test/").data,
    baseUrl := (r"https://x.test").data,
    homepage := .ok (200, soupFull),
    download := fun _ =>
      .ok { status := 200, contentType := (r"image/png").data, body := bytesBig },
    joinUrl := fun b p => b ++ p }

/-- Fetch environment where the page is empty and every download raises. -/
def envFetchDead : FetchEnv :=
  { pageUrl := (r"https://x.test/").data,
    baseUrl := (r"https://x.test").data,
    homepage := .ok (200, {}),
    download := fun _ => .error ((r"connection refused").data),
    joinUrl := fun b p => b ++ p }

/-- Fetch environment whose homepage fetch itself raises. -/
def envFetchRaise : FetchEnv :=
  { pageUrl := (r"https://x.test/").data,
    baseUrl := (r"https://x.test").data,
    homepage := .error ((r"timeout").data),
    download := fun _ => .error ((r"timeout").data),
    joinUrl := fun b p => b ++ p }

/-- A trivial image-processing environment (not reached in the failure
scenarios the witnesses exercise). -/
def pilDemo : PILEnv :=
  { makedirs := .ok (), openImage := fun _ => .ok (64, 64),
    thumbDims := fun wh => wh, save := fun _ => .ok () }

/-- A demo tool for the registry witness. -/
def demoTool : Tool :=
  { name := (r"demo").data, run := fun _ => .ok { success := true } }

/-! Theorems. Helper lemmas come first, then one theorem per claim (with a
witness where the claim's theorem carries hypotheses). -/

/-- A missing confidence entry defaults to `1.0`. -/
theorem confGet_of_none {confs : ConfMap} {k : LStr}
    (h : lookupConf confs k = none) : confGet confs k = 1 := by
  induction confs with
  | nil => rfl
  | cons kv rest ih =>
    obtain ⟨k', c⟩ := kv
    by_cases hk : k' = k
    · simp [lookupConf, hk] at h
    · simp [lookupConf, hk] at h
      simp [confGet, hk, ih h]

/-- C8: `ToolRegistry.execute` on a name not present in the registry returns
`ToolResult(success=false, error='Tool not found: <name>')` without raising,
and on a registered name dispatches to that tool's `execute` with the given
context. -/
theorem claim8_registry (tools : ToolTable) (name : LStr) (ctx : ToolContext) :
    (registryGet tools name = none →
      registryExecute tools name ctx =
        .ok { success := false, data := [], confidence := 0, logs := [],
              error := some ((r"Tool not found: ").data ++ name) }) ∧
    (∀ t, registryGet tools name = some t →
      registryExecute tools name ctx = t.run ctx) := by
  refine ⟨fun h => ?_, fun t h => ?_⟩ <;> simp [registryExecute, toolNotFoundError, h]

/-- Witness for C8: a lookup miss and a dispatch, at concrete inputs. -/
theorem claim8_witness :
    (registryExecute [] ((r"image_fetch").data) { params := [] } =
      .ok { success := false, data := [], confidence := 0, logs := [],
            error := some ((r"Tool not found: ").data ++ (r"image_fetch").data) }) ∧
    (registryExecute [(((r"demo").data), demoTool)] ((r"demo").data) { params := [] } =
      demoTool.run { params := [] }) :=
  ⟨(claim8_registry [] ((r"image_fetch").data) { params := [] }).1 rfl,
   (claim8_registry [(((r"demo").data), demoTool)] ((r"demo").data)
      { params := [] }).2 demoTool rfl⟩

/-- C4: for every input whose `'name'` value is missing or blank after
stripping whitespace, `AgencyAgent.execute` returns a failed result with
the validation message `'Agency name is required'`, an empty draft and an
empty log trail — hence no `llm_call` log entry exists and no stage ran —
for every provider environment and existing record. (A missing key is the
case `s = []`, since `input_data.get('name', '')` defaults to `''`.) -/
theorem claim4_validation (env : AgencyEnv) (input : Dict)
    (existing : Option AgencyRecord) (s : LStr)
    (hname : (lookupJ input ((r"name").data)).getD (.str []) = .str s)
    (hblank : pyStrip s = []) :
    agencyExecute env input existing =
      .ok { success := false, draft := [], skipped_fields := [], diff := none,
            logs := [], provider_used := env.providerName,
            model_used := env.modelName, is_update := false,
            error := some ((r"Agency name is required").data) } := by
  simp [agencyExecute, hname, hblank, createResult, nameRequiredMsg]

/-- Witness for C4 at a blank name with an existing record supplied. -/
theorem claim4_witness :
    agencyExecute envHappy [((r"name").data, .str ((r"   ").data))] (some recDemo) =
      .ok { success := false, draft := [], skipped_fields := [], diff := none,
            logs := [], provider_used := envHappy.providerName,
            model_used := envHappy.modelName, is_update := false,
            error := some ((r"Agency name is required").data) } :=
  claim4_validation envHappy _ (some recDemo) ((r"   ").data) rfl rfl

/-- C1 (the code contradicts the claim): in a run where every stage up to
and including diff computation succeeds, `AgencyAgent.execute` succeeds
when the audit append succeeds, but when the audit append raises it
returns `success = false` with the audit error as the run's error — the
failure lands in the generic `except` handler instead of being swallowed. -/
theorem claim1_audit_failure_fails_run :
    (∃ res, agencyExecute envHappy inputDemo none = .ok res ∧
        res.success = true ∧ res.error = none) ∧
    (∃ res, agencyExecute envAudit inputDemo none = .ok res ∧
        res.success = false ∧ res.error = some ((r"disk full").data)) :=
  ⟨⟨_, rfl, rfl, rfl⟩, ⟨_, rfl, rfl, rfl⟩⟩

/-- C5 as stated is false at a concrete input: the configured threshold is
an arbitrary float, and at threshold `2.0` the field `'a'`, which has no
confidence entry (so defaults to confidence `1.0`), is skipped, not kept. -/
theorem claim5_counterexample :
    lookupConf [] ((r"a").data) = none ∧
    (filterByConfidence 2 [((r"a").data, .str ((r"v").data))] []).1 = [] ∧
    (filterByConfidence 2 [((r"a").data, .str ((r"v").data))] []).2 =
      [((r"a").data, skippedEntry (.str ((r"v").data)) 1 2)] :=
  ⟨rfl, rfl, rfl⟩

/-- C5 (amended): filtering keeps exactly the fields whose confidence is at
or above the threshold; every other field moves to `skipped_fields` as
`{'value': v, 'confidence': c, 'reason': 'Below threshold (c < t)'}`; a
field with no confidence entry defaults to full confidence `1.0` and is
therefore kept whenever the configured threshold is at most `1.0`. -/
theorem claim5_filter (threshold : ℚ) (data : Dict) (confs : ConfMap) :
    (∀ k v, (k, v) ∈ (filterByConfidence threshold data confs).1 ↔
        ((k, v) ∈ data ∧ threshold ≤ confGet confs k)) ∧
    (∀ k e, (k, e) ∈ (filterByConfidence threshold data confs).2 ↔
        (∃ v, (k, v) ∈ data ∧ ¬ threshold ≤ confGet confs k ∧
           e = skippedEntry v (confGet confs k) threshold)) ∧
    (threshold ≤ 1 → ∀ k v, (k, v) ∈ data → lookupConf confs k = none →
        (k, v) ∈ (filterByConfidence threshold data confs).1) := by
  refine ⟨?_, ?_, ?_⟩
  · intro k v
    induction data with
    | nil => simp [filterByConfidence]
    | cons kv rest ih =>
      obtain ⟨k', v'⟩ := kv
      by_cases hc : threshold ≤ confGet confs k'
      · simp only [filterByConfidence, if_pos hc, List.mem_cons, Prod.mk.injEq, ih]
        constructor
        · rintro (⟨rfl, rfl⟩ | ⟨h, hconf⟩)
          · exact ⟨Or.inl ⟨rfl, rfl⟩, hc⟩
          · exact ⟨Or.inr h, hconf⟩
        · rintro ⟨⟨rfl, rfl⟩ | h, hconf⟩
          · exact Or.inl ⟨rfl, rfl⟩
          · exact Or.inr ⟨h, hconf⟩
      · simp only [filterByConfidence, if_neg hc, List.mem_cons, Prod.mk.injEq, ih]
        constructor
        · rintro ⟨h, hconf⟩
          exact ⟨Or.inr h, hconf⟩
        · rintro ⟨⟨rfl, rfl⟩ | h, hconf⟩
          · exact absurd hconf hc
          · exact ⟨h, hconf⟩
  · intro k e
    induction data with
    | nil => simp [filterByConfidence]
    | cons kv rest ih =>
      obtain ⟨k', v'⟩ := kv
      by_cases hc : threshold ≤ confGet confs k'
      · simp only [filterByConfidence, if_pos hc, List.mem_cons, Prod.mk.injEq, ih]
        constructor
        · rintro ⟨v, hv, hn, he⟩
          exact ⟨v, Or.inr hv, hn, he⟩
        · rintro ⟨v, ⟨rfl, rfl⟩ | hv, hn, he⟩
          · exact absurd hc hn
          · exact ⟨v, hv, hn, he⟩
      · simp only [filterByConfidence, if_neg hc, List.mem_cons, Prod.mk.injEq, ih]
        constructor
        · rintro (⟨rfl, rfl⟩ | ⟨v, hv, hn, he⟩)
          · exact ⟨v', Or.inl ⟨rfl, rfl⟩, hc, rfl⟩
          · exact ⟨v, Or.inr hv, hn, he⟩
        · rintro ⟨v, ⟨rfl, rfl⟩ | hv, hn, he⟩
          · exact Or.inl ⟨rfl, he⟩
          · exact Or.inr ⟨v, hv, hn, he⟩
  · intro hth k v
    induction data with
    | nil => intro hmem _; cases hmem
    | cons kv rest ih =>
      intro hmem hnone
      obtain ⟨k', v'⟩ := kv
      rcases List.mem_cons.mp hmem with h | h
      · obtain ⟨hk, hv⟩ := Prod.ext_iff.mp h
        dsimp at hk hv
        subst hk
        subst hv
        have hcc : threshold ≤ confGet confs k := by
          rw [confGet_of_none hnone]
          exact hth
        simp [filterByConfidence, hcc]
      · by_cases hc : threshold ≤ confGet confs k'
        · simp only [filterByConfidence, if_pos hc, List.mem_cons]
          exact Or.inr (ih h hnone)
        · simp only [filterByConfidence, if_neg hc]
          exact ih h hnone

/-- Witness for C5 at a concrete threshold and field set. -/
theorem claim5_witness :
    ((r"a").data, JValue.str ((r"v").data)) ∈
      (filterByConfidence 1 [((r"a").data, JValue.str ((r"v").data))] []).1 :=
  (claim5_filter 1 _ []).2.2 (by norm_num) _ _ (List.Mem.head _) rfl

/-- `startsFence` makes the fence marker a prefix. -/
theorem fence3_isPrefixOf_of_startsFence : ∀ {s : LStr}, startsFence s = true →
    fence3.isPrefixOf s = true
  | [], h => by simp [startsFence] at h
  | [c1], h => by simp [startsFence] at h
  | [c1, c2], h => by simp [startsFence] at h
  | c1 :: c2 :: c3 :: rest, h => by
    simp only [startsFence, Bool.and_eq_true, decide_eq_true_eq] at h
    obtain ⟨⟨h1, h2⟩, h3⟩ := h
    have e1 : c1 = Char.ofNat 96 := h1 ▸ (Char.ofNat_toNat c1).symm
    have e2 : c2 = Char.ofNat 96 := h2 ▸ (Char.ofNat_toNat c2).symm
    have e3 : c3 = Char.ofNat 96 := h3 ▸ (Char.ofNat_toNat c3).symm
    subst e1
    subst e2
    subst e3
    simp [fence3, List.isPrefixOf]

/-- A successful fence search implies the fence marker occurs. -/
theorem containsSub_of_fenceSearch_some : ∀ {s inner : LStr},
    fenceSearch s = some inner → containsSub fence3 s = true
  | [], _, h => by simp [fenceSearch] at h
  | c :: rest, inner, h => by
    by_cases hf : startsFence (c :: rest) = true
    · simp only [containsSub, Bool.or_eq_true]
      exact Or.inl (fence3_isPrefixOf_of_startsFence hf)
    · rw [fenceSearch, if_neg (by simpa using hf)] at h
      simp only [containsSub, Bool.or_eq_true]
      exact Or.inr (containsSub_of_fenceSearch_some h)

/-- If every fence match fails to parse, the fenced-block attempt is `None`. -/
theorem fenceAttempt_eq_none {jloads : LStr → Except LStr JValue} {content : LStr}
    (h : ∀ inner, fenceSearch content = some inner →
        ∃ e2, jloads (pyStrip inner) = .error e2) :
    fenceAttempt jloads content = none := by
  unfold fenceAttempt
  split
  · cases hfs : fenceSearch content with
    | none => rfl
    | some inner =>
      obtain ⟨e2, he⟩ := h inner hfs
      simp [he]
  · rfl

/-- C3: `_extract_json_from_response` tries, in priority order, (1) the
trimmed response verbatim, (2) a fenced code block's inner content, (3) the
substring between the first `{` and the last `}`; if all three fail it
returns the sentinel mapping holding the parse-error marker and a
500-character-bounded excerpt of the raw text, and nothing else — no real
field is ever populated from a failed parse. -/
theorem claim3_extraction_priority (jloads : LStr → Except LStr JValue) (raw : LStr) :
    (∀ v, jloads (pyStrip raw) = .ok v → extractJsonFromResponse jloads raw = v) ∧
    (∀ err inner v, jloads (pyStrip raw) = .error err →
        fenceSearch (pyStrip raw) = some inner →
        jloads (pyStrip inner) = .ok v →
        extractJsonFromResponse jloads raw = v) ∧
    (∀ err cand v, jloads (pyStrip raw) = .error err →
        (∀ inner, fenceSearch (pyStrip raw) = some inner →
            ∃ e2, jloads (pyStrip inner) = .error e2) →
        braceSlice (pyStrip raw) = some cand →
        jloads cand = .ok v →
        extractJsonFromResponse jloads raw = v) ∧
    (∀ err, jloads (pyStrip raw) = .error err →
        (∀ inner, fenceSearch (pyStrip raw) = some inner →
            ∃ e2, jloads (pyStrip inner) = .error e2) →
        (∀ cand, braceSlice (pyStrip raw) = some cand →
            ∃ e3, jloads cand = .error e3) →
        ∃ msg excerpt, extractJsonFromResponse jloads raw =
            .obj [(parseErrorKey, .str msg), (rawContentKey, .str excerpt)] ∧
          excerpt.length ≤ 500) := by
  refine ⟨?_, ?_, ?_, ?_⟩
  · intro v h
    simp [extractJsonFromResponse, h]
  · intro err inner v h1 h2 h3
    simp [extractJsonFromResponse, h1, fenceAttempt,
      containsSub_of_fenceSearch_some h2, h2, h3]
  · intro err cand v h1 hfence h3 h4
    simp [extractJsonFromResponse, h1, fenceAttempt_eq_none hfence, h3, h4]
  · intro err h1 hfence hbrace
    cases hb : braceSlice (pyStrip raw) with
    | some cand =>
      obtain ⟨e3, he3⟩ := hbrace cand hb
      refine ⟨foundButFailedMsg ++ e3, cand.take 500, ?_, List.length_take_le ..⟩
      simp [extractJsonFromResponse, h1, fenceAttempt_eq_none hfence, hb, he3]
    | none =>
      refine ⟨noJsonMsg, (pyStrip raw).take 500, ?_, List.length_take_le ..⟩
      simp [extractJsonFromResponse, h1, fenceAttempt_eq_none hfence, hb]

/-- Witness for C3: a fenced block parsed by the demo oracle, and the
sentinel on a hopeless response. -/
theorem claim3_witness :
    (extractJsonFromResponse jloadsDemo (("```json\n\x7b\"name\":\"X\"\x7d\n```").data) =
      .obj [((r"name").data, .str ((r"X").data))]) ∧
    (∃ msg excerpt, extractJsonFromResponse jloadsDemo ((r"no json here").data) =
        .obj [(parseErrorKey, .str msg), (rawContentKey, .str excerpt)] ∧
      excerpt.length ≤ 500) :=
  ⟨(claim3_extraction_priority jloadsDemo _).2.1 _ _ _ rfl rfl rfl,
   (claim3_extraction_priority jloadsDemo _).2.2.2 _ rfl
     (fun inner h => by
       simp [show fenceSearch (pyStrip ((r"no json here").data)) = none from rfl] at h)
     (fun cand h => by
       simp [show braceSlice (pyStrip ((r"no json here").data)) = none from rfl] at h)⟩

/-- The meta-tag attempt only ever reports source `'og:image'`. -/
theorem tryOgImage_source {env : FetchEnv} {soup : Soup} {b : Bytes} {src : LStr}
    (h : tryOgImage env soup = some (b, src)) : src = srcOgImage := by
  unfold tryOgImage at h
  split at h
  · split at h
    · split at h
      · simp only [Option.some.injEq, Prod.mk.injEq] at h
        exact h.2.symm
      · exact absurd h (by simp)
    · exact absurd h (by simp)
  · exact absurd h (by simp)

/-- The inline-image scan only ever reports source `'html_img'`. -/
theorem tryLogoImgs_source {env : FetchEnv} : ∀ {imgs : List PageImg} {b : Bytes} {src : LStr},
    tryLogoImgs env imgs = some (b, src) → src = srcHtmlImg
  | [], _, _, h => by exact nomatch h
  | im :: rest, b, src, h => by
    unfold tryLogoImgs at h
    split at h
    · split at h
      · simp only [Option.some.injEq, Prod.mk.injEq] at h
        exact h.2.symm
      · exact tryLogoImgs_source h
    · exact tryLogoImgs_source h

/-- The favicon scan reports source `'favicon_link'` and only accepts
downloads above 1000 bytes. -/
theorem tryIconLinks_spec {env : FetchEnv} :
    ∀ {links : List (Option LStr)} {b : Bytes} {src : LStr},
    tryIconLinks env links = some (b, src) → src = srcFaviconLink ∧ b.length > 1000
  | [], _, _, h => by exact nomatch h
  | none :: rest, b, src, h => by
    unfold tryIconLinks at h
    exact tryIconLinks_spec h
  | some href :: rest, b, src, h => by
    unfold tryIconLinks at h
    split at h
    · split at h
      · split at h
        · split at h
          · next hlen =>
            simp only [Option.some.injEq, Prod.mk.injEq] at h
            obtain ⟨hb, hs⟩ := h
            subst hb
            exact ⟨hs.symm, hlen⟩
          · exact tryIconLinks_spec h
        · exact tryIconLinks_spec h
      · exact tryIconLinks_spec h
    · exact tryIconLinks_spec h

/-- The common-path probe reports a `'common_path:'`-prefixed source. -/
theorem tryCommonPaths_source {env : FetchEnv} : ∀ {paths : List LStr} {b : Bytes} {src : LStr},
    tryCommonPaths env paths = some (b, src) → ∃ p, src = commonPathTag ++ p
  | [], _, _, h => by exact nomatch h
  | p :: rest, b, src, h => by
    unfold tryCommonPaths at h
    split at h
    · simp only [Option.some.injEq, Prod.mk.injEq] at h
      exact ⟨p, h.2.symm⟩
    · exact tryCommonPaths_source h

/-- A `'common_path:'`-prefixed source is never the favicon source. -/
theorem commonPath_ne_favicon (p : LStr) : commonPathTag ++ p ≠ srcFaviconLink := by
  intro h
  have h2 := congrArg List.head? h
  rw [show (commonPathTag ++ p).head? = some (Char.ofNat 99) from rfl,
      show srcFaviconLink.head? = some (Char.ofNat 102) from rfl] at h2
  exact absurd h2 (by decide)

/-- C6: the logo discovery heuristics are an ordered fallback chain, first
success wins: (a) on a 200 homepage carrying both a usable `og:image`
(whose download succeeds) and a logo-matching `<img>`, the meta-tag image
wins and the reported source identifier is `'og:image'`; (b) a
favicon-link result is used only when the downloaded bytes exceed the
1000-byte minimum; (c) when none of the page attempts and none of the
conventional-path probes produces an image, the chain yields nothing, and
(d) the tool then returns `success = false` with confidence `0.0`. -/
theorem claim6_heuristic_order :
    (∀ (env : FetchEnv) (status : Nat) (soup : Soup) (content : LStr) (b : Bytes),
        env.homepage = .ok (status, soup) → status = 200 →
        soup.ogImage = some content → content ≠ [] →
        downloadImage env (env.joinUrl env.baseUrl content) = some b →
        (∃ im ∈ soup.imgs, isLogoImg im = true) →
        fetchLogoFromWebsite env = some (b, srcOgImage)) ∧
    (∀ (env : FetchEnv) (b : Bytes),
        fetchLogoFromWebsite env = some (b, srcFaviconLink) → b.length > 1000) ∧
    (∀ (env : FetchEnv) (status : Nat) (soup : Soup),
        env.homepage = .ok (status, soup) →
        tryOgImage env soup = none → tryLogoImgs env soup.imgs = none →
        tryIconLinks env soup.iconHrefs = none →
        tryCommonPaths env LOGO_PATHS = none →
        fetchLogoFromWebsite env = none) ∧
    (∀ (env : FetchEnv) (pil : PILEnv) (p : ImgParams) (u : LStr),
        pil.makedirs = .ok () → p.websiteUrl = some u → u ≠ [] →
        p.imageType = (r"logo").data → fetchLogoFromWebsite env = none →
        imageFetchExecute env pil p =
          .ok { success := false,
                data := [((r"reason").data, .str ((r"Image not found").data))],
                confidence := 0 }) := by
  refine ⟨?_, ?_, ?_, ?_⟩
  · intro env status soup content b hhp hst hog hc hdl _
    subst hst
    have hc' : content.isEmpty = false := by
      cases content with
      | nil => exact absurd rfl hc
      | cons a as => rfl
    unfold fetchLogoFromWebsite
    rw [hhp]
    simp [tryOgImage, hog, hc', hdl]
  · intro env b h
    unfold fetchLogoFromWebsite at h
    cases hhp : env.homepage with
    | error e => rw [hhp] at h; exact absurd h (by simp)
    | ok st =>
      obtain ⟨status, soup⟩ := st
      rw [hhp] at h
      simp only at h
      by_cases hst : status = 200
      · rw [if_pos hst] at h
        cases hog : tryOgImage env soup with
        | some res =>
          rw [hog] at h
          simp only [Option.some.injEq] at h
          obtain ⟨bb, bs⟩ := res
          have hsrc := tryOgImage_source hog
          simp only [Prod.mk.injEq] at h
          rw [h.2] at hsrc
          exact absurd hsrc (by decide)
        | none =>
          rw [hog] at h
          cases himg : tryLogoImgs env soup.imgs with
          | some res =>
            rw [himg] at h
            simp only [Option.some.injEq] at h
            obtain ⟨bb, bs⟩ := res
            have hsrc := tryLogoImgs_source himg
            simp only [Prod.mk.injEq] at h
            rw [h.2] at hsrc
            exact absurd hsrc (by decide)
          | none =>
            rw [himg] at h
            cases hicon : tryIconLinks env soup.iconHrefs with
            | some res =>
              rw [hicon] at h
              simp only [Option.some.injEq] at h
              obtain ⟨bb, bs⟩ := res
              obtain ⟨h1, h2⟩ := tryIconLinks_spec hicon
              simp only [Prod.mk.injEq] at h
              rw [← h.1]
              exact h2
            | none =>
              rw [hicon] at h
              simp only at h
              obtain ⟨p, hp⟩ := tryCommonPaths_source h
              exact absurd hp.symm (commonPath_ne_favicon p)
      · rw [if_neg hst] at h
        simp only at h
        obtain ⟨p, hp⟩ := tryCommonPaths_source h
        exact absurd hp.symm (commonPath_ne_favicon p)
  · intro env status soup hhp hog himgs hicons hpaths
    unfold fetchLogoFromWebsite
    rw [hhp]
    by_cases hst : status = 200
    · simp [hst, hog, himgs, hicons, hpaths]
    · simp [hst, hpaths]
  · intro env pil p u hmk hweb hu htype hchain
    have hu' : u.isEmpty = false := by
      cases u with
      | nil => exact absurd rfl hu
      | cons a as => rfl
    unfold imageFetchExecute
    rw [hmk, hweb, htype]
    simp [hu', hchain]

/-- Witness for C6: the preference scenario on the fixture page, and the
all-fail scenario. -/
theorem claim6_witness :
    (fetchLogoFromWebsite envFetchOg = some (bytesBig, srcOgImage)) ∧
    (imageFetchExecute envFetchDead pilDemo
        { entityName := (r"Metro").data,
          websiteUrl := some ((r"https://x.test/").data) } =
      .ok { success := false,
            data := [((r"reason").data, .str ((r"Image not found").data))],
            confidence := 0 }) :=
  ⟨claim6_heuristic_order.1 envFetchOg 200 soupFull ((r"/og.png").data) bytesBig
      rfl rfl rfl (by decide) rfl
      ⟨{ src := (r"/logo.png").data, classes := [(r"logo").data] },
        List.Mem.head _, rfl⟩,
   claim6_heuristic_order.2.2.2 envFetchDead pilDemo _ ((r"https://x.test/").data)
      rfl rfl (by decide) rfl
      (claim6_heuristic_order.2.2.1 envFetchDead 200 {} rfl rfl rfl rfl rfl)⟩

/-- C7: the tool fails closed. With no website URL, or with the heuristic
chain exhausted, `execute` returns `success = false`, confidence `0.0` and
a reason; a raised download is caught and treated as a failed attempt
(`None`, letting the chain continue), and a raised homepage fetch makes
both chains report overall failure instead of propagating. -/
theorem claim7_network_failures :
    (∀ (env : FetchEnv) (pil : PILEnv) (p : ImgParams),
        pil.makedirs = .ok () → p.websiteUrl = none →
        imageFetchExecute env pil p =
          .ok { success := false,
                data := [((r"reason").data, .str ((r"Image not found").data))],
                confidence := 0 }) ∧
    (∀ (env : FetchEnv) (pil : PILEnv) (p : ImgParams) (u : LStr),
        pil.makedirs = .ok () → p.websiteUrl = some u → u ≠ [] →
        (if p.imageType = (r"logo").data then fetchLogoFromWebsite env
         else fetchHeaderFromWebsite env) = none →
        imageFetchExecute env pil p =
          .ok { success := false,
                data := [((r"reason").data, .str ((r"Image not found").data))],
                confidence := 0 }) ∧
    (∀ (env : FetchEnv) (url e : LStr),
        env.download url = .error e → downloadImage env url = none) ∧
    (∀ (env : FetchEnv) (e : LStr), env.homepage = .error e →
        fetchLogoFromWebsite env = none ∧ fetchHeaderFromWebsite env = none) := by
  refine ⟨?_, ?_, ?_, ?_⟩
  · intro env pil p hmk hweb
    unfold imageFetchExecute
    rw [hmk, hweb]
  · intro env pil p u hmk hweb hu hchain
    have hu' : u.isEmpty = false := by
      cases u with
      | nil => exact absurd rfl hu
      | cons a as => rfl
    unfold imageFetchExecute
    rw [hmk, hweb]
    simp [hu', hchain]
  · intro env url e h
    unfold downloadImage
    rw [h]
  · intro env e h
    constructor
    · unfold fetchLogoFromWebsite
      rw [h]
    · unfold fetchHeaderFromWebsite
      rw [h]

/-- Witness for C7: no website URL given, and a dead network. -/
theorem claim7_witness :
    (imageFetchExecute envFetchDead pilDemo { entityName := (r"Metro").data } =
      .ok { success := false,
            data := [((r"reason").data, .str ((r"Image not found").data))],
            confidence := 0 }) ∧
    (downloadImage envFetchDead ((r"https://x.test/logo.png").data) = none) ∧
    (fetchLogoFromWebsite envFetchRaise = none ∧
      fetchHeaderFromWebsite envFetchRaise = none) :=
  ⟨claim7_network_failures.1 envFetchDead pilDemo _ rfl rfl,
   claim7_network_failures.2.2.1 envFetchDead _ ((r"connection refused").data) rfl,
   claim7_network_failures.2.2.2 envFetchRaise ((r"timeout").data) rfl⟩

/-- A key with a successful lookup is among the dict's keys. -/
theorem mem_dictKeys_of_lookupJ : ∀ {kvs : Dict} {k : LStr} {v : JValue},
    lookupJ kvs k = some v → k ∈ dictKeys kvs
  | [], _, _, h => by exact nomatch h
  | (k', v') :: rest, k, v, h => by
    unfold lookupJ at h
    by_cases hk : k' = k
    · subst hk
      exact show k' ∈ k' :: dictKeys rest from List.mem_cons_self ..
    · rw [if_neg hk] at h
      exact show k ∈ k' :: dictKeys rest from
        List.mem_cons.mpr (Or.inr (mem_dictKeys_of_lookupJ h))

/-- Deduplication preserves membership. -/
theorem mem_dedupKeys {k : LStr} : ∀ {l : List LStr}, k ∈ dedupKeys l ↔ k ∈ l := by
  intro l
  induction l with
  | nil => simp [dedupKeys]
  | cons a rest ih =>
    simp only [dedupKeys, List.mem_cons, List.mem_filter]
    constructor
    · rintro (rfl | ⟨h, _⟩)
      · exact Or.inl rfl
      · exact Or.inr (ih.mp h)
    · rintro (rfl | h)
      · exact Or.inl rfl
      · by_cases hk : k = a
        · exact Or.inl hk
        · exact Or.inr ⟨ih.mpr h, by simpa using hk⟩

/-- The diff key set, characterized: a field appears exactly when the
proposed value is non-`None` and differs from the existing value. -/
theorem mem_computeDiff_keys : ∀ (existing proposed : Dict) (k : LStr),
    k ∈ dictKeys (computeDiff existing proposed) ↔
      (pyEq (dGet existing k) (dGet proposed k) = false ∧
        isNull (dGet proposed k) = false) := by
  intro existing proposed k
  unfold computeDiff
  show k ∈ ((dedupKeys (dictKeys existing ++ dictKeys proposed)).filterMap _).map Prod.fst ↔ _
  rw [List.map_filterMap]
  simp only [List.mem_filterMap, apply_ite (Option.map Prod.fst), Option.map_some',
    Option.map_none']
  constructor
  · rintro ⟨a, _, hfa⟩
    split at hfa
    · next hc =>
      simp only [Option.some.injEq] at hfa
      subst hfa
      simpa [Bool.and_eq_true, Bool.not_eq_true'] using hc
    · exact absurd hfa (by simp)
  · rintro ⟨h1, h2⟩
    refine ⟨k, ?_, ?_⟩
    · apply mem_dedupKeys.mpr
      apply List.mem_append.mpr
      right
      have hlk : ∃ v, lookupJ proposed k = some v := by
        cases hl : lookupJ proposed k with
        | none =>
          have hd : dGet proposed k = .null := by simp [dGet, hl]
          rw [hd] at h2
          exact absurd h2 (by simp [isNull])
        | some v => exact ⟨v, rfl⟩
      obtain ⟨v, hv⟩ := hlk
      exact mem_dictKeys_of_lookupJ hv
    · rw [if_pos (by simp [Bool.and_eq_true, Bool.not_eq_true', h1, h2])]

/-- Every result the pipeline body reports as successful carries a diff
exactly when an existing record was supplied. -/
theorem agencyExecuteBody_success_diff {env : AgencyEnv} {n : LStr}
    {existing : Option AgencyRecord} {logs0 : List LogEntry} {res : AgentResult}
    (h : agencyExecuteBody env n existing logs0 = res) (hs : res.success = true) :
    res.diff.isSome ↔ existing.isSome := by
  simp only [agencyExecuteBody, finishWithAudit] at h
  repeat' split at h
  all_goals subst h
  all_goals simp only [exceptResult, createResult] at hs
  all_goals first
    | exact Bool.noConfusion hs
    | simp [createResult]

/-- C2 as stated is false at two concrete inputs: a failed run (blank name)
with an existing record supplied has `diff = None`; and `_compute_diff`
keeps a field whose proposed value is the empty string (only `None` is
excluded). -/
theorem claim2_counterexample :
    (∃ res, agencyExecute envHappy [((r"name").data, .str [])] (some recDemo) = .ok res ∧
        res.diff = none ∧ res.success = false) ∧
    dictKeys (computeDiff [((r"x").data, .str ((r"a").data))] [((r"x").data, .str [])])
      = [(r"x").data] :=
  ⟨⟨_, rfl, rfl, rfl⟩, rfl⟩

/-- C2 (amended): for every successful run the result's diff is populated
iff an existing record was supplied; and for every (existing, proposed)
pair, a field appears in `_compute_diff` iff its proposed value is
non-`None` and differs from the existing value under Python equality. -/
theorem claim2_diff_characterization :
    (∀ (env : AgencyEnv) (input : Dict) (existing : Option AgencyRecord)
        (res : AgentResult), agencyExecute env input existing = .ok res →
        res.success = true → (res.diff.isSome ↔ existing.isSome)) ∧
    (∀ (existing proposed : Dict) (k : LStr),
        k ∈ dictKeys (computeDiff existing proposed) ↔
          (pyEq (dGet existing k) (dGet proposed k) = false ∧
            isNull (dGet proposed k) = false)) := by
  constructor
  · intro env input existing res h hs
    unfold agencyExecute at h
    split at h
    · split at h
      · simp only [Except.ok.injEq] at h
        subst h
        simp [createResult] at hs
      · simp only [Except.ok.injEq] at h
        exact agencyExecuteBody_success_diff h hs
    · exact absurd h (by simp)
  · exact mem_computeDiff_keys

/-- Witness for C2: the happy-path update run carries a diff, and the
membership characterization at a concrete field. -/
theorem claim2_witness :
    (runUpdate.diff.isSome ↔ (some recDemo : Option AgencyRecord).isSome) ∧
    (((r"x").data ∈ dictKeys (computeDiff [((r"x").data, .str ((r"a").data))]
        [((r"x").data, .str ((r"b").data))])) ↔
      (pyEq (dGet [((r"x").data, .str ((r"a").data))] ((r"x").data))
          (dGet [((r"x").data, .str ((r"b").data))] ((r"x").data)) = false ∧
        isNull (dGet [((r"x").data, .str ((r"b").data))] ((r"x").data)) = false)) :=
  ⟨claim2_diff_characterization.1 envHappy inputDemo (some recDemo) runUpdate rfl rfl,
   claim2_diff_characterization.2 _ _ _⟩

/-- The pipeline body on a valid-but-non-object extraction response: the
run fails with a generic execution error, not the labelled parse failure. -/
theorem agencyExecuteBody_non_mapping {env : AgencyEnv} {n : LStr}
    {existing : Option AgencyRecord} {logs0 : List LogEntry} {rr er : LLMResponse} {v : JValue}
    (hres : env.research = .ok rr) (hrc : rr.content.isEmpty = false)
    (hext : env.extraction = .ok er)
    (hjl : env.jloads (pyStrip er.content) = .ok v)
    (hobj : ∀ kvs, v ≠ .obj kvs) :
    (agencyExecuteBody env n existing logs0).success = false ∧
    ∃ e, (agencyExecuteBody env n existing logs0).error = some e ∧
      failedParseMsg.isPrefixOf e = false := by
  have hv : extractJsonFromResponse env.jloads er.content = v := by
    simp only [extractJsonFromResponse, hjl]
  cases v with
  | obj kvs => exact absurd rfl (hobj kvs)
  | null =>
    refine ⟨?_, notIterableMsg (pyTypeName .null), ?_, rfl⟩ <;>
      simp [agencyExecuteBody, hres, hext, callLLM, hrc, hv, pyContains,
        exceptResult, createResult]
  | bool b =>
    refine ⟨?_, notIterableMsg (pyTypeName (.bool b)), ?_, rfl⟩ <;>
      simp [agencyExecuteBody, hres, hext, callLLM, hrc, hv, pyContains,
        exceptResult, createResult]
  | num q =>
    refine ⟨?_, notIterableMsg (pyTypeName (.num q)), ?_, rfl⟩ <;>
      simp [agencyExecuteBody, hres, hext, callLLM, hrc, hv, pyContains,
        exceptResult, createResult]
  | str s' =>
    cases hcs : containsSub parseErrorKey s' with
    | true =>
      refine ⟨?_, noAttrMsg (pyTypeName (.str s')) ((r"get").data), ?_, rfl⟩ <;>
        simp [agencyExecuteBody, hres, hext, callLLM, hrc, hv, pyContains, hcs,
          pyGetAttr, exceptResult, createResult]
    | false =>
      refine ⟨?_, noAttrMsg (pyTypeName (.str s')) ((r"get").data), ?_, rfl⟩ <;>
        simp [agencyExecuteBody, hres, hext, callLLM, hrc, hv, pyContains, hcs,
          exceptResult, createResult]
  | arr xs =>
    cases hcs : xs.any (fun x => pyEq x (.str parseErrorKey)) with
    | true =>
      refine ⟨?_, noAttrMsg (pyTypeName (.arr xs)) ((r"get").data), ?_, rfl⟩ <;>
        simp [agencyExecuteBody, hres, hext, callLLM, hrc, hv, pyContains, hcs,
          pyGetAttr, exceptResult, createResult]
    | false =>
      refine ⟨?_, noAttrMsg (pyTypeName (.arr xs)) ((r"get").data), ?_, rfl⟩ <;>
        simp [agencyExecuteBody, hres, hext, callLLM, hrc, hv, pyContains, hcs,
          exceptResult, createResult]

/-- C10: an extraction response that is valid JSON but not a JSON object is
returned as-is by `_extract_json_from_response` (no sentinel mapping), and
the pipeline run then terminates with a generic execution error — not the
explicitly labelled parse-error failure. -/
theorem claim10_non_mapping (env : AgencyEnv) (input : Dict)
    (existing : Option AgencyRecord) (s : LStr) (rr er : LLMResponse) (v : JValue)
    (hname : (lookupJ input ((r"name").data)).getD (.str []) = .str s)
    (hs : pyStrip s ≠ [])
    (hres : env.research = .ok rr) (hrc : rr.content ≠ [])
    (hext : env.extraction = .ok er)
    (hjl : env.jloads (pyStrip er.content) = .ok v)
    (hobj : ∀ kvs, v ≠ .obj kvs) :
    extractJsonFromResponse env.jloads er.content = v ∧
    ∃ res e, agencyExecute env input existing = .ok res ∧ res.success = false ∧
      res.error = some e ∧ failedParseMsg.isPrefixOf e = false := by
  have hrc' : rr.content.isEmpty = false := by
    cases hc : rr.content with
    | nil => exact absurd hc hrc
    | cons a as => rfl
  have hse : (pyStrip s).isEmpty = false := by
    cases hc : pyStrip s with
    | nil => exact absurd hc hs
    | cons a as => rfl
  have hv : extractJsonFromResponse env.jloads er.content = v := by
    simp only [extractJsonFromResponse, hjl]
  obtain ⟨h1, e, h2, h3⟩ :=
    @agencyExecuteBody_non_mapping env (pyStrip s) existing
      [decisionLog [((r"action").data, .str ((r"start").data)),
                    ((r"agency_name").data, .str (pyStrip s))]]
      rr er v hres hrc' hext hjl hobj
  refine ⟨hv, _, e, ?_, h1, h2, h3⟩
  simp [agencyExecute, hname, hse]

/-- Witness for C10 at the response `'3'`. -/
theorem claim10_witness :
    extractJsonFromResponse envNum.jloads ((r"3").data) = .num 3 ∧
    ∃ res e, agencyExecute envNum inputDemo none = .ok res ∧ res.success = false ∧
      res.error = some e ∧ failedParseMsg.isPrefixOf e = false :=
  claim10_non_mapping envNum inputDemo none ((r"TriMet").data)
    { content := (r"research findings").data } { content := (r"3").data } (.num 3)
    rfl (by decide) rfl (by decide) rfl rfl (by simp)

/-- Lowering an upper-case ASCII letter adds 32 to its code point. -/
theorem asciiLower_toNat_of_upper {c : Char} (h : 65 ≤ c.toNat ∧ c.toNat ≤ 90) :
    (asciiLower c).toNat = c.toNat + 32 := by
  have hv : (c.toNat + 32).isValidChar := Or.inl (by omega)
  simp only [Char.toNat, UInt32.toNat] at hv
  unfold asciiLower
  rw [if_pos h]
  simp [Char.toNat, Char.ofNat, hv, Char.ofNatAux, UInt32.toNat, BitVec.toNat_ofNatLt]

/-- Lowering fixes everything outside the upper-case ASCII range. -/
theorem asciiLower_of_not_upper {c : Char} (h : ¬(65 ≤ c.toNat ∧ c.toNat ≤ 90)) :
    asciiLower c = c := by
  unfold asciiLower
  rw [if_neg h]

/-- Lowering is idempotent. -/
theorem asciiLower_idem (c : Char) : asciiLower (asciiLower c) = asciiLower c := by
  by_cases h : 65 ≤ c.toNat ∧ c.toNat ≤ 90
  · have ht := asciiLower_toNat_of_upper h
    apply asciiLower_of_not_upper
    rw [ht]
    omega
  · rw [asciiLower_of_not_upper h]
    exact asciiLower_of_not_upper h

/-- Lowering does not affect whitespace-ness. -/
theorem isPySpace_asciiLower (c : Char) : isPySpace (asciiLower c) = isPySpace c := by
  by_cases h : 65 ≤ c.toNat ∧ c.toNat ≤ 90
  · have ht := asciiLower_toNat_of_upper h
    have h1 := h.1
    have h2 := h.2
    apply Bool.eq_iff_iff.mpr
    simp only [isPySpace, ht, Bool.or_eq_true, decide_eq_true_eq]
    omega
  · rw [asciiLower_of_not_upper h]

/-- `dropWhile isPySpace` commutes with lowering. -/
theorem map_lower_dropWhile_space (l : LStr) :
    (l.map asciiLower).dropWhile isPySpace = (l.dropWhile isPySpace).map asciiLower := by
  rw [List.dropWhile_map]
  have hp : (isPySpace ∘ asciiLower) = isPySpace := funext isPySpace_asciiLower
  rw [hp]

/-- One suffix attempt commutes with lowering (the regex is already
case-insensitive). -/
theorem stripSuffixRev_lower (w rs : LStr) :
    stripSuffixRev w (lowerStr rs) = Option.map lowerStr (stripSuffixRev w rs) := by
  unfold stripSuffixRev
  have hcond : ((lowerStr rs).take w.reverse.length).map asciiLower
      = (rs.take w.reverse.length).map asciiLower := by
    rw [lowerStr, ← List.map_take, List.map_map]
    congr 1
    funext c
    exact asciiLower_idem c
  rw [hcond]
  by_cases hc : (rs.take w.reverse.length).map asciiLower = w.reverse
  · rw [if_pos hc, if_pos hc]
    have hdrop : (lowerStr rs).drop w.reverse.length
        = (rs.drop w.reverse.length).map asciiLower := by
      rw [lowerStr, ← List.map_drop]
    rw [hdrop]
    cases hd : rs.drop w.reverse.length with
    | nil => rfl
    | cons c rest' =>
      show (if isPySpace (asciiLower c) = true then
              some ((asciiLower c :: rest'.map asciiLower).dropWhile isPySpace)
            else none)
          = Option.map lowerStr
              (if isPySpace c = true then some ((c :: rest').dropWhile isPySpace) else none)
      rw [isPySpace_asciiLower c]
      by_cases hsp : isPySpace c = true
      · rw [if_pos hsp, if_pos hsp]
        rw [show (asciiLower c :: rest'.map asciiLower) = (c :: rest').map asciiLower from rfl,
           map_lower_dropWhile_space]
        rfl
      · rw [if_neg hsp, if_neg hsp]
        rfl
  · rw [if_neg hc, if_neg hc]
    rfl

/-- The suffix alternation commutes with lowering. -/
theorem trySuffixes_lower (rs : LStr) : ∀ (ws : List LStr),
    trySuffixes (lowerStr rs) ws = Option.map lowerStr (trySuffixes rs ws)
  | [] => rfl
  | w :: ws => by
    unfold trySuffixes
    rw [stripSuffixRev_lower]
    cases hsr : stripSuffixRev w rs with
    | some res => rfl
    | none =>
      simp only [Option.map_none']
      exact trySuffixes_lower rs ws

/-- Lemma A: suffix stripping commutes with lowering. -/
theorem stripOrgSuffix_lower (name : LStr) :
    stripOrgSuffix (lowerStr name) = lowerStr (stripOrgSuffix name) := by
  unfold stripOrgSuffix
  have hrev : (lowerStr name).reverse = lowerStr name.reverse := by
    rw [lowerStr, lowerStr, ← List.map_reverse]
  rw [hrev, trySuffixes_lower]
  cases htr : trySuffixes name.reverse ORG_SUFFIXES with
  | none => rfl
  | some res =>
    show (lowerStr res).reverse = lowerStr res.reverse
    rw [lowerStr, lowerStr, ← List.map_reverse]
/-- Whitespace is outside the kept `[a-z0-9]` class. -/
theorem not_alnum_of_space {c : Char} (hs : isPySpace c = true) : isLowerAlnum c = false := by
  simp only [isPySpace, Bool.or_eq_true, decide_eq_true_eq] at hs
  cases hb : isLowerAlnum c with
  | false => rfl
  | true =>
    exfalso
    simp only [isLowerAlnum, Bool.or_eq_true, Bool.and_eq_true, decide_eq_true_eq] at hb
    omega

/-- A kept character is not the underscore separator. -/
theorem ne_usc_of_alnum {c : Char} (h : isLowerAlnum c = true) : ¬ (c = usc) := by
  intro he
  subst he
  exact absurd h (by decide)

/-- The trailing strip is empty exactly when every character matches. -/
theorem dropTrailIf_eq_nil_iff (p : Char → Bool) : ∀ (l : LStr),
    dropTrailIf p l = [] ↔ l.all p = true
  | [] => by simp [dropTrailIf]
  | c :: cs => by
    rw [dropTrailIf]
    by_cases h0 : dropTrailIf p cs = []
    · rw [if_pos h0]
      have hall : cs.all p = true := (dropTrailIf_eq_nil_iff p cs).mp h0
      by_cases hp : p c = true
      · simp [hp, hall]
      · simp [hp, hall]
    · rw [if_neg h0]
      have hnall : ¬ cs.all p = true := fun hall =>
        h0 ((dropTrailIf_eq_nil_iff p cs).mpr hall)
      simp [List.all_cons, hnall]

/-- A nonempty trailing strip of a cons keeps the head. -/
theorem dropTrailIf_ne_nil_head {p : Char → Bool} {c : Char} {cs : LStr}
    (h : dropTrailIf p (c :: cs) ≠ []) : ∃ tl, dropTrailIf p (c :: cs) = c :: tl := by
  rw [dropTrailIf] at h ⊢
  by_cases h0 : dropTrailIf p cs = []
  · rw [if_pos h0] at h ⊢
    by_cases hp : p c = true
    · rw [if_pos hp] at h
      exact absurd rfl h
    · rw [if_neg hp]
      exact ⟨[], rfl⟩
  · rw [if_neg h0]
    exact ⟨_, rfl⟩

/-- A nonempty trailing strip keeps the original head. -/
theorem head?_dropTrailIf_of_ne_nil {p : Char → Bool} : ∀ {l : LStr},
    dropTrailIf p l ≠ [] → (dropTrailIf p l).head? = l.head?
  | [], h => absurd rfl h
  | c :: cs, h => by
    obtain ⟨tl, htl⟩ := dropTrailIf_ne_nil_head h
    rw [htl]
    rfl

/-- Trailing and leading strips with the same predicate commute. -/
theorem dropTrailIf_dropWhile_comm (p : Char → Bool) : ∀ (l : LStr),
    dropTrailIf p (l.dropWhile p) = (dropTrailIf p l).dropWhile p
  | [] => rfl
  | c :: cs => by
    by_cases hp : p c = true
    · rw [List.dropWhile_cons, if_pos hp, dropTrailIf_dropWhile_comm p cs]
      by_cases h0 : dropTrailIf p cs = []
      · rw [h0, dropTrailIf, if_pos h0, if_pos hp]
      · rw [dropTrailIf, if_neg h0, List.dropWhile_cons, if_pos hp]
    · rw [List.dropWhile_cons, if_neg hp]
      by_cases h0 : dropTrailIf p cs = []
      · rw [dropTrailIf, if_pos h0, if_neg hp, List.dropWhile_cons, if_neg hp]
      · rw [dropTrailIf, if_neg h0, List.dropWhile_cons, if_neg hp]

/-- A list is its trailing strip plus a run of matching characters. -/
theorem dropTrailIf_decomp (p : Char → Bool) : ∀ (l : LStr),
    ∃ ws, l = dropTrailIf p l ++ ws ∧ ws.all p = true
  | [] => ⟨[], rfl, rfl⟩
  | c :: cs => by
    obtain ⟨ws, hws, hall⟩ := dropTrailIf_decomp p cs
    rw [dropTrailIf]
    by_cases h0 : dropTrailIf p cs = []
    · rw [if_pos h0]
      rw [h0] at hws
      simp only [List.nil_append] at hws
      by_cases hp : p c = true
      · rw [if_pos hp]
        exact ⟨c :: ws, by simpa using congrArg (c :: ·) hws, by simp [hp, hall]⟩
      · rw [if_neg hp]
        exact ⟨ws, by simpa using congrArg (c :: ·) hws, hall⟩
    · rw [if_neg h0]
      exact ⟨ws, by simpa using congrArg (c :: ·) hws, hall⟩

/-- Collapsing an all-whitespace string yields nothing or one separator. -/
theorem collapse_all_space : ∀ {ws : LStr}, ws.all isPySpace = true →
    collapseNonAlnum ws = [] ∨ collapseNonAlnum ws = [usc]
  | [], _ => Or.inl rfl
  | c :: cs, h => by
    simp only [List.all_cons, Bool.and_eq_true] at h
    have hna := not_alnum_of_space h.1
    rcases collapse_all_space h.2 with h2 | h2
    · right
      simp [collapseNonAlnum, hna, h2]
    · right
      simp [collapseNonAlnum, hna, h2]

/-- Prepending a non-kept character does not change the leading-trimmed
collapse. -/
theorem dropWhileUsc_collapse_cons {c : Char} (hna : isLowerAlnum c = false) (cs : LStr) :
    (collapseNonAlnum (c :: cs)).dropWhile (· = usc)
      = (collapseNonAlnum cs).dropWhile (· = usc) := by
  rw [collapseNonAlnum, hna]
  by_cases hh : (collapseNonAlnum cs).head? = some usc
  · rw [if_neg (by simp), if_pos hh]
  · rw [if_neg (by simp), if_neg hh, List.dropWhile_cons, if_pos (by simp)]

/-- Lemma B, leading half: a leading whitespace strip is absorbed. -/
theorem dropWhileUsc_collapse_dropWhile_space : ∀ (s : LStr),
    (collapseNonAlnum (s.dropWhile isPySpace)).dropWhile (· = usc)
      = (collapseNonAlnum s).dropWhile (· = usc)
  | [] => rfl
  | c :: cs => by
    by_cases hs : isPySpace c = true
    · rw [List.dropWhile_cons, if_pos hs,
        dropWhileUsc_collapse_dropWhile_space cs,
        ← dropWhileUsc_collapse_cons (not_alnum_of_space hs) cs]
    · rw [List.dropWhile_cons, if_neg hs]

/-- An all-underscore list is emptied by the trailing strip. -/
theorem dropTrailUsc_of_all_usc {l : LStr} (h : l.all (· = usc) = true) :
    dropTrailIf (· = usc) l = [] :=
  (dropTrailIf_eq_nil_iff (· = usc) l).mpr h

/-- Lemma B, trailing half: appending whitespace is absorbed by the
trailing trim of the collapse. -/
theorem dropTrailUsc_collapse_append_space : ∀ (t ws : LStr), ws.all isPySpace = true →
    dropTrailIf (· = usc) (collapseNonAlnum (t ++ ws))
      = dropTrailIf (· = usc) (collapseNonAlnum t)
  | [], ws, h => by
    rcases collapse_all_space h with h2 | h2 <;> simp [h2, dropTrailIf]
  | c :: cs, ws, h => by
    have ih := dropTrailUsc_collapse_append_space cs ws h
    rw [List.cons_append]
    by_cases ha : isLowerAlnum c = true
    · rw [collapseNonAlnum, ha, collapseNonAlnum, ha]
      simp only [if_true]
      rw [dropTrailIf, dropTrailIf, ih]
    · have hna : isLowerAlnum c = false := by
        cases hb : isLowerAlnum c with
        | true => exact absurd hb ha
        | false => rfl
      rw [collapseNonAlnum, hna, collapseNonAlnum, hna]
      simp only [Bool.false_eq_true, if_false]
      by_cases h0 : dropTrailIf (· = usc) (collapseNonAlnum cs) = []
      · have h0' : dropTrailIf (· = usc) (collapseNonAlnum (cs ++ ws)) = [] := by
          rw [ih]
          exact h0
        have hA := (dropTrailIf_eq_nil_iff (· = usc) (collapseNonAlnum (cs ++ ws))).mp h0'
        have hB := (dropTrailIf_eq_nil_iff (· = usc) (collapseNonAlnum cs)).mp h0
        have hstepA : dropTrailIf (· = usc)
            (if (collapseNonAlnum (cs ++ ws)).head? = some usc then collapseNonAlnum (cs ++ ws)
             else usc :: collapseNonAlnum (cs ++ ws)) = [] := by
          split
          · exact h0'
          · exact dropTrailUsc_of_all_usc (by simp [hA])
        have hstepB : dropTrailIf (· = usc)
            (if (collapseNonAlnum cs).head? = some usc then collapseNonAlnum cs
             else usc :: collapseNonAlnum cs) = [] := by
          split
          · exact h0
          · exact dropTrailUsc_of_all_usc (by simp [hB])
        rw [hstepA, hstepB]
      · have h0' : dropTrailIf (· = usc) (collapseNonAlnum (cs ++ ws)) ≠ [] := by
          rw [ih]
          exact h0
        have hXne : collapseNonAlnum (cs ++ ws) ≠ [] := by
          intro hx
          exact h0' (by rw [hx]; rfl)
        have hYne : collapseNonAlnum cs ≠ [] := by
          intro hy
          exact h0 (by rw [hy]; rfl)
        have hheads : (collapseNonAlnum (cs ++ ws)).head? = (collapseNonAlnum cs).head? := by
          rw [← head?_dropTrailIf_of_ne_nil h0', ← head?_dropTrailIf_of_ne_nil h0, ih]
        by_cases hx : (collapseNonAlnum cs).head? = some usc
        · rw [if_pos (hheads.trans hx), if_pos hx]
          exact ih
        · rw [if_neg (fun hc => hx (hheads.symm.trans hc)), if_neg hx]
          rw [dropTrailIf, dropTrailIf, ih]

/-- Lemma B: the interior whitespace strip of `_generate_short_name` is
absorbed by collapse-and-trim. -/
theorem stripUsc_collapse_pyStrip (s : LStr) :
    stripUsc (collapseNonAlnum (pyStrip s)) = stripUsc (collapseNonAlnum s) := by
  unfold pyStrip stripUsc
  have hbridge : dropTrailIf (· = usc)
      (collapseNonAlnum (dropTrailIf isPySpace (s.dropWhile isPySpace)))
      = dropTrailIf (· = usc) (collapseNonAlnum (s.dropWhile isPySpace)) := by
    obtain ⟨ws, hdec, hall⟩ := dropTrailIf_decomp isPySpace (s.dropWhile isPySpace)
    conv_rhs => rw [hdec]
    exact (dropTrailUsc_collapse_append_space _ ws hall).symm
  rw [dropTrailIf_dropWhile_comm, hbridge, ← dropTrailIf_dropWhile_comm,
    dropWhileUsc_collapse_dropWhile_space s]

/-- C9: `_generate_short_name` computes, for every entity name, exactly the
spec-worded derivation (`shortNameSpec`): lower-case the name, strip a
trailing generic organizational suffix, collapse non-alphanumeric runs to
a single separator, trim leading and trailing separators, and map an empty
result to the fixed placeholder. -/
theorem claim9_short_name (name : LStr) : generateShortName name = shortNameSpec name := by
  simp only [generateShortName, shortNameSpec]
  rw [stripUsc_collapse_pyStrip, ← stripOrgSuffix_lower]

end SeeTran
